import Mathlib

/-!
Verification development for the link-resolution solver server
(`solver-server.js`).  The JavaScript source is shallowly embedded as
executable Lean definitions:

* JSON-like runtime values are the inductive type `JSVal` (string, number,
  bool, null, array, object), as the spec's design notes suggest; JS numbers
  are IEEE doubles but every claim under verification touches numbers only
  through truthiness and identity, so they are modelled as integers.
* JS property access, truthiness, `JSON.parse`, `JSON.stringify`,
  `decodeURIComponent`, the URL constructor's hostname extraction and the
  few concrete regular expressions of the source are modelled as total
  executable functions at the fidelity those claims need (fidelity notes at
  each definition).
* Network and browser effects are oracles (inputs of the definitions), and
  the single-threaded event loop is modelled by atomic synchronous blocks:
  a block runs without interleaving, and suspension points (`await`) split
  a function into successive blocks.
-/

set_option maxHeartbeats 1000000

/-- Runtime JSON-like value, as produced by `JSON.parse` and consumed by the
candidate extractor.  `num` is modelled as `Int` (see module comment). -/
inductive JSVal where
  | null : JSVal
  | bool : Bool → JSVal
  | num : Int → JSVal
  | str : String → JSVal
  | arr : List JSVal → JSVal
  | obj : List (String × JSVal) → JSVal

/-- JS truthiness of a `JSVal`: `null`, `false`, `0` and `""` are falsy;
every array and object is truthy. -/
def jsTruthy : JSVal → Bool
  | .null => false
  | .bool b => b
  | .num n => n != 0
  | .str s => s != ""
  | .arr _ => true
  | .obj _ => true

/-- JS `typeof v === "object"`: true for `null`, arrays and objects. -/
def jsTypeIsObject : JSVal → Bool
  | .null => true
  | .arr _ => true
  | .obj _ => true
  | _ => false

/-- Whitespace class `\s` of JS regular expressions (ECMA-262 WhiteSpace and
LineTerminator code points). -/
def jsIsSpaceChar (c : Char) : Bool :=
  c = ' ' || c = '\t' || c = '\n' || c = '\r' || c.val = 0x0b || c.val = 0x0c ||
  c.val = 0xa0 || c.val = 0x1680 || (0x2000 ≤ c.val && c.val ≤ 0x200A) ||
  c.val = 0x2028 || c.val = 0x2029 || c.val = 0x202F || c.val = 0x205F ||
  c.val = 0x3000 || c.val = 0xFEFF

/-- Model of `String.prototype.trim`: strips the JS whitespace set (the same
WhiteSpace and LineTerminator code points as the `\s` class) from both
ends. -/
def jsTrim (s : String) : String :=
  String.mk (((s.data.dropWhile jsIsSpaceChar).reverse.dropWhile jsIsSpaceChar).reverse)

/-- Worker of the `split(".")` model, accumulating the current piece in
reverse. -/
def splitDotAux (acc : List Char) : List Char → List String
  | [] => [String.mk acc.reverse]
  | c :: cs =>
      if c = '.' then String.mk acc.reverse :: splitDotAux [] cs
      else splitDotAux (c :: acc) cs

/-- Model of `String.prototype.split(".")` (source line 166): pieces between
dots, with empty pieces preserved, and `[""]` for the empty string. -/
def jsSplitDot (s : String) : List String :=
  splitDotAux [] s.data

/-- Model of `String.prototype.slice(0, n)` (the truncations of the source);
JS slices by UTF-16 units while this counts code points, a difference no
claim depends on. -/
def jsTake (s : String) (n : Nat) : String :=
  String.mk (s.data.take n)

/-- Model of `String.prototype.toLowerCase` at ASCII fidelity (hosts in this
program are ASCII). -/
def jsToLower (s : String) : String :=
  String.mk (s.data.map Char.toLower)

/-- Numeric value of a digit string. -/
def digitsVal (ds : List Char) : Nat :=
  ds.foldl (fun a c => 10 * a + (c.toNat - '0'.toNat)) 0

/-- Canonical array index: `some n` when the string is the decimal numeral
printed for `n` (JS array index lookup `xs[p]`). -/
def canonicalIndex (s : String) : Option Nat :=
  match s.data with
  | [] => none
  | d :: ds =>
      if (d :: ds).all Char.isDigit && (ds = [] || d ≠ '0') then
        some (digitsVal (d :: ds))
      else none

/-- Property read `v[k]` combined with the `k in v` test: `some` exactly when
the property is present.  Objects are assoc lists with unique keys (what
`JSON.parse` produces); arrays expose their elements and `length`.  The JS
`in` operator would additionally see prototype-chain members, but none of the
property names used by the source (`bypassed`, `result`, `url`, ...) occur on
`Object.prototype`, so own-property lookup is faithful here. -/
def jsGetProp : JSVal → String → Option JSVal
  | .obj fs, k => (fs.find? (fun f => f.1 = k)).map (·.2)
  | .arr xs, k =>
      if k = "length" then some (.num xs.length)
      else match canonicalIndex k with
        | some i => xs.get? i
        | none => none
  | _, _ => none

/-- Hint-path walk of `extractCandidate` (source lines 166-171): start from
`parsed`, and for each dot-separated part follow the field when the current
value is a truthy object that has it, otherwise become `null` and stop. -/
def hintWalk : JSVal → List String → JSVal
  | cur, [] => cur
  | cur, p :: ps =>
      if jsTruthy cur && jsTypeIsObject cur then
        match jsGetProp cur p with
        | some v => hintWalk v ps
        | none => .null
      else .null

/-- Hint branch of `extractCandidate` (source lines 165-173): when a
preferred key is given, walk it and return the terminal value if it is a
string with non-blank trim. -/
def hintHit (parsed : JSVal) (preferredKey : String) : Option JSVal :=
  if preferredKey ≠ "" then
    match hintWalk parsed (jsSplitDot preferredKey) with
    | .str s => if jsTrim s ≠ "" then some (.str s) else none
    | _ => none
  else none

/-- Priority field names scanned by `extractCandidate` (source line 174). -/
def priorityKeys : List String := ["bypassed", "result", "url", "data", "target", "redirect"]

/-- Top-level priority scan of `extractCandidate` (source lines 174-180):
for each key present, return it when it is a string with non-blank trim, or
return the `url` field of a truthy object value when that field is truthy. -/
def scanKeys : List String → JSVal → Option JSVal
  | [], _ => none
  | k :: ks, parsed =>
      match jsGetProp parsed k with
      | none => scanKeys ks parsed
      | some v =>
        match v with
        | .str s => if jsTrim s ≠ "" then some (.str s) else scanKeys ks parsed
        | _ =>
          if jsTruthy v && jsTypeIsObject v then
            match jsGetProp v "url" with
            | some u => if jsTruthy u then some u else scanKeys ks parsed
            | none => scanKeys ks parsed
          else scanKeys ks parsed

/-- Character class `[^\s'"]` of the URL-shaped-substring regex. -/
def urlBodyChar (c : Char) : Bool :=
  !(jsIsSpaceChar c) && c ≠ '\'' && c ≠ '\"'

/-- Attempt of the regex `https?:\/\/[^\s'"]{6,}` at one position: literal
`http`, optional greedy `s`, literal `://`, then a maximal run of at least six
body characters.  Returns the matched text. -/
def urlMatchAt (cs : List Char) : Option String :=
  match cs with
  | 'h' :: 't' :: 't' :: 'p' :: rest =>
      let tryTail := fun (pre : String) (r : List Char) =>
        match r with
        | ':' :: '/' :: '/' :: r2 =>
            let body := r2.takeWhile urlBodyChar
            if body.length ≥ 6 then some (pre ++ "://" ++ String.mk body) else none
        | _ => none
      (match rest with
       | 's' :: r2 =>
           (match tryTail "https" r2 with
            | some m => some m
            | none => tryTail "http" rest)
       | _ => tryTail "http" rest)
  | _ => none

/-- Leftmost match of the regex `https?:\/\/[^\s'"]{6,}` over a character
list, scanning positions left to right. -/
def urlRegexFindAux : List Char → Option String
  | [] => none
  | c :: cs =>
      match urlMatchAt (c :: cs) with
      | some m => some m
      | none => urlRegexFindAux cs

/-- Leftmost match of `https?:\/\/[^\s'"]{6,}` in a string (`String.match`
of source lines 182 and 186), or `none` when the regex does not match. -/
def urlRegexFind (s : String) : Option String :=
  urlRegexFindAux s.data

/-- Lowercase hexadecimal digit character for a value below 16. -/
def hexChar (n : Nat) : Char :=
  if n < 10 then Char.ofNat (48 + n) else Char.ofNat (87 + n)

/-- Four-digit lowercase hexadecimal rendering used by the `\uXXXX` escapes
of `JSON.stringify`. -/
def hex4 (n : Nat) : String :=
  String.mk [hexChar (n / 4096 % 16), hexChar (n / 256 % 16), hexChar (n / 16 % 16), hexChar (n % 16)]

/-- Escape of one character inside a JSON string literal, following the
`QuoteJSONString` rules of `JSON.stringify`. -/
def jsonEscapeChar (c : Char) : String :=
  if c = '\"' then "\\\""
  else if c = '\\' then "\\\\"
  else if c.val = 0x08 then "\\b"
  else if c.val = 0x0c then "\\f"
  else if c = '\n' then "\\n"
  else if c = '\r' then "\\r"
  else if c = '\t' then "\\t"
  else if c.val < 0x20 then "\\u" ++ hex4 c.val.toNat
  else String.singleton c

/-- Escaped body of a JSON string literal. -/
def jsonEscape (s : String) : String :=
  String.join (s.data.map jsonEscapeChar)

mutual

/-- Model of `JSON.stringify` on `JSVal` (source line 181 serializes the
parsed payload before the URL-regex scan).  Integral numbers only, matching
the `JSVal.num` modelling choice. -/
def stringifyJSVal : JSVal → String
  | .null => "null"
  | .bool true => "true"
  | .bool false => "false"
  | .num n => toString n
  | .str s => "\"" ++ jsonEscape s ++ "\""
  | .arr xs => "[" ++ stringifyArr xs ++ "]"
  | .obj fs => "\x7b" ++ stringifyObj fs ++ "\x7d"

/-- Comma-separated serialization of array elements. -/
def stringifyArr : List JSVal → String
  | [] => ""
  | [x] => stringifyJSVal x
  | x :: y :: xs => stringifyJSVal x ++ "," ++ stringifyArr (y :: xs)

/-- Comma-separated serialization of object fields. -/
def stringifyObj : List (String × JSVal) → String
  | [] => ""
  | [(k, v)] => "\"" ++ jsonEscape k ++ "\":" ++ stringifyJSVal v
  | (k, v) :: f :: fs =>
      "\"" ++ jsonEscape k ++ "\":" ++ stringifyJSVal v ++ "," ++ stringifyObj (f :: fs)

end

/-- Serialized-form fallback of `extractCandidate` (source lines 181-183):
stringify the whole structure and take the first URL-shaped substring. -/
def serializedFind (parsed : JSVal) : Option JSVal :=
  (urlRegexFind (stringifyJSVal parsed)).map .str

/-- Raw-text fallback of `extractCandidate` (source lines 185-188): when the
text argument is a non-empty string, take its first URL-shaped substring. -/
def textFallback : Option String → JSVal
  | some t =>
      if t ≠ "" then
        match urlRegexFind t with
        | some m => .str m
        | none => .null
      else .null
  | none => .null

/-- Candidate extractor `extractCandidate(parsed, text, preferredKey)`
(source lines 163-190).  The preferred key defaults to "bypassed" at the call
sites; `text` is `Option String` because the source guards it with
`text && typeof text === "string"`.  Returns a `JSVal`: the source returns a
string, `null`, or (from the nested `url` field dig) an arbitrary value. -/
def extractCandidate (parsed : JSVal) (text : Option String) (preferredKey : String) : JSVal :=
  if jsTruthy parsed && jsTypeIsObject parsed then
    match hintHit parsed preferredKey with
    | some v => v
    | none =>
      match scanKeys priorityKeys parsed with
      | some v => v
      | none =>
        match serializedFind parsed with
        | some v => v
        | none => textFallback text
  else textFallback text

/-- JSON insignificant whitespace. -/
def jsonWsChar (c : Char) : Bool :=
  c = ' ' || c = '\t' || c = '\n' || c = '\r'

/-- Value of a hexadecimal digit character, if any. -/
def hexVal (c : Char) : Option Nat :=
  let n := c.toNat
  if 48 ≤ n && n ≤ 57 then some (n - 48)
  else if 97 ≤ n && n ≤ 102 then some (n - 87)
  else if 65 ≤ n && n ≤ 70 then some (n - 55)
  else none

/-- Body of a JSON string literal after the opening quote: returns the
decoded characters and the input after the closing quote.  Handles the JSON
escapes and rejects unescaped control characters, as `JSON.parse` does.
Surrogate-pair recombination of `\uXXXX` escapes is not modelled (no claim
touches it); a `\uXXXX` escape must denote a valid scalar value here. -/
def parseStringBody : List Char → Option (List Char × List Char)
  | [] => none
  | '\"' :: rest => some ([], rest)
  | '\\' :: e :: rest =>
      (match e with
       | '\"' => (parseStringBody rest).map (fun r => ('\"' :: r.1, r.2))
       | '\\' => (parseStringBody rest).map (fun r => ('\\' :: r.1, r.2))
       | '/' => (parseStringBody rest).map (fun r => ('/' :: r.1, r.2))
       | 'b' => (parseStringBody rest).map (fun r => (Char.ofNat 8 :: r.1, r.2))
       | 'f' => (parseStringBody rest).map (fun r => (Char.ofNat 12 :: r.1, r.2))
       | 'n' => (parseStringBody rest).map (fun r => ('\n' :: r.1, r.2))
       | 'r' => (parseStringBody rest).map (fun r => ('\r' :: r.1, r.2))
       | 't' => (parseStringBody rest).map (fun r => ('\t' :: r.1, r.2))
       | 'u' =>
         (match rest with
          | h1 :: h2 :: h3 :: h4 :: rest2 =>
            (match hexVal h1, hexVal h2, hexVal h3, hexVal h4 with
             | some a, some b, some c, some d =>
                 let n := 4096 * a + 256 * b + 16 * c + d
                 if n < 0xd800 || (0xdfff < n && n ≤ 0x10ffff) then
                   (parseStringBody rest2).map (fun r => (Char.ofNat n :: r.1, r.2))
                 else none
             | _, _, _, _ => none)
          | _ => none)
       | _ => none)
  | c :: rest =>
      if c.val < 0x20 then none
      else (parseStringBody rest).map (fun r => (c :: r.1, r.2))
  termination_by structural cs => cs

/-- Digits prefix split. -/
def spanDigits (cs : List Char) : List Char × List Char :=
  (cs.takeWhile Char.isDigit, cs.dropWhile Char.isDigit)

/-- JSON number parse restricted to integers: optional minus, digits without
a redundant leading zero, and no fraction or exponent (see the `JSVal.num`
modelling note; `JSON.parse` additionally accepts fractional and exponent
forms, which are outside this model). -/
def parseIntNumber (cs : List Char) : Option (Int × List Char) :=
  let (neg, cs1) := match cs with
    | '-' :: rest => (true, rest)
    | _ => (false, cs)
  match spanDigits cs1 with
  | ([], _) => none
  | (ds, rest) =>
      if ds.length > 1 && ds.headD '0' = '0' then none
      else
        match rest with
        | '.' :: _ => none
        | 'e' :: _ => none
        | 'E' :: _ => none
        | _ =>
          let n : Nat := ds.foldl (fun acc c => 10 * acc + (c.toNat - '0'.toNat)) 0
          some (if neg then -(n : Int) else (n : Int), rest)

/-- JS object-literal field assignment: a later duplicate key overwrites the
earlier value in place, as `JSON.parse` does. -/
def setField (fs : List (String × JSVal)) (k : String) (v : JSVal) : List (String × JSVal) :=
  if fs.any (fun f => f.1 = k) then fs.map (fun f => if f.1 = k then (k, v) else f)
  else fs ++ [(k, v)]

mutual

/-- Fuel-indexed JSON value parser (model of `JSON.parse`): returns the value
and the remaining input.  The fuel only serves termination; callers pass the
input length plus one, which suffices since every recursive call consumes at
least one character. -/
def parseJsonVal : Nat → List Char → Option (JSVal × List Char)
  | 0, _ => none
  | fuel + 1, cs =>
    match cs.dropWhile jsonWsChar with
    | 'n' :: 'u' :: 'l' :: 'l' :: rest => some (.null, rest)
    | 't' :: 'r' :: 'u' :: 'e' :: rest => some (.bool true, rest)
    | 'f' :: 'a' :: 'l' :: 's' :: 'e' :: rest => some (.bool false, rest)
    | '\"' :: rest => (parseStringBody rest).map (fun r => (.str (String.mk r.1), r.2))
    | '[' :: rest =>
        (match rest.dropWhile jsonWsChar with
         | ']' :: rest2 => some (.arr [], rest2)
         | _ => (parseJsonElems fuel rest).map (fun r => (.arr r.1, r.2)))
    | '\x7b' :: rest =>
        (match rest.dropWhile jsonWsChar with
         | '\x7d' :: rest2 => some (.obj [], rest2)
         | _ => (parseJsonFields fuel [] rest).map (fun r => (.obj r.1, r.2)))
    | rest => (parseIntNumber rest).map (fun r => (.num r.1, r.2))
  termination_by structural fuel => fuel

/-- Comma-separated JSON array elements up to the closing bracket. -/
def parseJsonElems : Nat → List Char → Option (List JSVal × List Char)
  | 0, _ => none
  | fuel + 1, cs =>
    match parseJsonVal fuel cs with
    | none => none
    | some (v, rest) =>
      match rest.dropWhile jsonWsChar with
      | ']' :: rest2 => some ([v], rest2)
      | ',' :: rest2 => (parseJsonElems fuel rest2).map (fun r => (v :: r.1, r.2))
      | _ => none
  termination_by structural fuel => fuel

/-- Comma-separated JSON object members up to the closing brace, with
later duplicate keys overwriting earlier ones. -/
def parseJsonFields : Nat → List (String × JSVal) → List Char → Option (List (String × JSVal) × List Char)
  | 0, _, _ => none
  | fuel + 1, acc, cs =>
    match cs.dropWhile jsonWsChar with
    | '\"' :: rest =>
      (match parseStringBody rest with
       | none => none
       | some (kcs, rest2) =>
         match rest2.dropWhile jsonWsChar with
         | ':' :: rest3 =>
           (match parseJsonVal fuel rest3 with
            | none => none
            | some (v, rest4) =>
              let acc2 := setField acc (String.mk kcs) v
              match rest4.dropWhile jsonWsChar with
              | '\x7d' :: rest5 => some (acc2, rest5)
              | ',' :: rest5 => parseJsonFields fuel acc2 rest5
              | _ => none)
         | _ => none)
    | _ => none
  termination_by structural fuel => fuel

end

/-- Model of `JSON.parse`: `none` when the parse throws (the source always
wraps the call in try/catch). -/
def jsonParse (s : String) : Option JSVal :=
  match parseJsonVal (s.length + 1) s.data with
  | some (v, rest) => if rest.dropWhile jsonWsChar = [] then some v else none
  | none => none

/-- Error raised by a modelled JS builtin: `URIError` from
`decodeURIComponent`, or a generic error carrying its display string (used
for oracle network and browser faults). -/
inductive JsError where
  | uriError : JsError
  | jsError : String → JsError
deriving DecidableEq, Repr

/-- Display string `String(err)` of a modelled error. -/
def errString : JsError → String
  | .uriError => "URIError: URI malformed"
  | .jsError m => m

/-- Reads one percent-escaped UTF-8 continuation byte (`%XY` with value in
`0x80..0xBF`). -/
def readContByte : List Char → Option (Nat × List Char)
  | '%' :: h1 :: h2 :: rest =>
      (match hexVal h1, hexVal h2 with
       | some a, some b =>
           let bv := 16 * a + b
           if 0x80 ≤ bv && bv ≤ 0xBF then some (bv, rest) else none
       | _, _ => none)
  | _ => none

/-- Least code point encodable with the given number of UTF-8 continuation
bytes (overlong encodings below it are rejected). -/
def utf8Floor : Nat → Nat
  | 1 => 0x80
  | 2 => 0x800
  | _ => 0x10000

/-- Fuel-indexed worker for `decodeURIComponent`.  A `%` must be followed by
two hex digits; a leading byte at or above `0x80` must introduce a valid,
shortest-form, scalar-value UTF-8 sequence whose continuation bytes are
themselves percent escapes, exactly as the ECMA-262 `Decode` operation
demands; any violation raises `URIError`.  The fuel is only for termination
and is never exhausted when it starts at the input length plus one. -/
def decodeURIAux : Nat → List Char → Except JsError (List Char)
  | 0, _ => .error .uriError
  | _ + 1, [] => .ok []
  | fuel + 1, '%' :: rest =>
      (match rest with
       | h1 :: h2 :: rest2 =>
         (match hexVal h1, hexVal h2 with
          | some a, some b =>
              let bv := 16 * a + b
              if bv < 0x80 then
                (decodeURIAux fuel rest2).map (Char.ofNat bv :: ·)
              else
                let contCount : Option Nat :=
                  if 0xC0 ≤ bv && bv ≤ 0xDF then some 1
                  else if 0xE0 ≤ bv && bv ≤ 0xEF then some 2
                  else if 0xF0 ≤ bv && bv ≤ 0xF7 then some 3
                  else none
                (match contCount with
                 | none => .error .uriError
                 | some 1 =>
                   (match readContByte rest2 with
                    | some (b1, rest3) =>
                        let cp := (bv - 0xC0) * 64 + (b1 - 0x80)
                        if utf8Floor 1 ≤ cp then
                          (decodeURIAux fuel rest3).map (Char.ofNat cp :: ·)
                        else .error .uriError
                    | none => .error .uriError)
                 | some 2 =>
                   (match readContByte rest2 with
                    | some (b1, rest3) =>
                      (match readContByte rest3 with
                       | some (b2, rest4) =>
                           let cp := (bv - 0xE0) * 4096 + (b1 - 0x80) * 64 + (b2 - 0x80)
                           if utf8Floor 2 ≤ cp && (cp < 0xD800 || 0xDFFF < cp) then
                             (decodeURIAux fuel rest4).map (Char.ofNat cp :: ·)
                           else .error .uriError
                       | none => .error .uriError)
                    | none => .error .uriError)
                 | some _ =>
                   (match readContByte rest2 with
                    | some (b1, rest3) =>
                      (match readContByte rest3 with
                       | some (b2, rest4) =>
                         (match readContByte rest4 with
                          | some (b3, rest5) =>
                              let cp := (bv - 0xF0) * 262144 + (b1 - 0x80) * 4096 +
                                (b2 - 0x80) * 64 + (b3 - 0x80)
                              if utf8Floor 3 ≤ cp && cp ≤ 0x10FFFF then
                                (decodeURIAux fuel rest5).map (Char.ofNat cp :: ·)
                              else .error .uriError
                          | none => .error .uriError)
                       | none => .error .uriError)
                    | none => .error .uriError))
          | _, _ => .error .uriError)
       | _ => .error .uriError)
  | fuel + 1, c :: rest => (decodeURIAux fuel rest).map (c :: ·)

/-- Model of the ECMAScript builtin `decodeURIComponent` (used by the
`param-URL` rule at source line 76): decodes percent escapes, raising
`URIError` on a malformed escape or an invalid UTF-8 escape sequence. -/
def decodeURIComponent (s : String) : Except JsError String :=
  (decodeURIAux (s.length + 1) s.data).map String.mk

/-- Scheme body characters after the leading letter (WHATWG URL). -/
def isSchemeChar (c : Char) : Bool :=
  c.isAlphanum || c = '+' || c = '-' || c = '.'

/-- Splits a leading `scheme:` off a URL string; `none` when the string has
no valid scheme (the URL constructor throws). -/
def splitSchemeAux (acc : List Char) : List Char → Option (List Char × List Char)
  | [] => none
  | c :: rest =>
      if c = ':' then some (acc.reverse, rest)
      else if isSchemeChar c then splitSchemeAux (c :: acc) rest
      else none

/-- Entry point of the scheme split: the first character must be a letter. -/
def splitScheme (cs : List Char) : Option (List Char × List Char) :=
  match cs with
  | c :: rest => if c.isAlpha then splitSchemeAux [c] rest else none
  | [] => none

/-- URL schemes the WHATWG parser treats as special. -/
def specialSchemes : List String := ["http", "https", "ws", "wss", "ftp", "file"]

/-- Part of an authority after the last `@` (the host-port part, with any
userinfo stripped), or the whole list when there is no `@`. -/
def afterLastAt (cs : List Char) : List Char :=
  (cs.reverse.takeWhile (· ≠ '@')).reverse

/-- Code points the WHATWG parser forbids inside a host. -/
def forbiddenHostChar (c : Char) : Bool :=
  c.val = 0 || c = '\t' || c = '\n' || c = '\r' || c = ' ' || c = '#' ||
  c = '/' || c = ':' || c = '<' || c = '>' || c = '?' || c = '@' ||
  c = '[' || c = '\\' || c = ']' || c = '^' || c = '|'

/-- Splits a trailing `:port` off a host-port part, validating that the port
is all digits (otherwise the URL constructor throws); bracketed IPv6 hosts
keep their brackets. -/
def splitPort (cs : List Char) : Option (List Char) :=
  match cs with
  | '[' :: _ =>
      let inside := cs.takeWhile (· ≠ ']')
      (match cs.dropWhile (· ≠ ']') with
       | ']' :: tail =>
         (match tail with
          | [] => some (inside ++ [']'])
          | ':' :: p => if p.all Char.isDigit then some (inside ++ [']']) else none
          | _ => none)
       | _ => none)
  | _ =>
      let host := cs.takeWhile (· ≠ ':')
      match cs.dropWhile (· ≠ ':') with
      | [] => some host
      | ':' :: p => if p.all Char.isDigit then some host else none
      | _ => none

/-- Hostname extraction of the ECMAScript `new URL(link).hostname`, modelled
from the WHATWG URL parser at the fidelity the domain rules need: a valid
scheme is required; special schemes slurp any run of slashes and then read an
authority; other schemes read an authority only after `//` and otherwise have
an empty hostname.  Percent-decoding and IDNA normalization of hosts are not
modelled (no claim depends on them); forbidden host characters and malformed
ports make the constructor throw, modelled as `none`. -/
def urlHostname (s : String) : Option String :=
  match splitScheme s.data with
  | none => none
  | some (sch, rest) =>
      let scheme := jsToLower (String.mk sch)
      if specialSchemes.contains scheme then
        let rest2 := rest.dropWhile (fun c => c = '/' || c = '\\')
        let authority := rest2.takeWhile (fun c => c ≠ '/' && c ≠ '?' && c ≠ '#' && c ≠ '\\')
        match splitPort (afterLastAt authority) with
        | none => none
        | some host =>
            if host = [] then none
            else if host.any forbiddenHostChar then none
            else some (jsToLower (String.mk host))
      else
        match rest with
        | '/' :: '/' :: rest2 =>
            let authority := rest2.takeWhile (fun c => c ≠ '/' && c ≠ '?' && c ≠ '#')
            (match splitPort (afterLastAt authority) with
             | none => none
             | some host =>
                 if host.any forbiddenHostChar then none
                 else some (jsToLower (String.mk host)))
        | _ => some ""

/-- Function `hostnameOf` (source lines 53-60): hostname of the link, retried
with an `https://` prefix when the first parse throws, lowercased; `null`
when both parses throw. -/
def hostnameOf (link : String) : Option String :=
  match urlHostname link with
  | some h => some (jsToLower h)
  | none =>
      match urlHostname ("https://" ++ link) with
      | some h => some (jsToLower h)
      | none => none

/-- Tests whether the first list starts with the second. -/
def listStartsWith : List Char → List Char → Bool
  | [], _ => true
  | _ :: _, [] => false
  | p :: ps, c :: cs => p = c && listStartsWith ps cs

/-- Worker for the JS `String.prototype.includes` model. -/
def strContainsAux (pat : List Char) : List Char → Bool
  | [] => listStartsWith pat []
  | c :: cs => listStartsWith pat (c :: cs) || strContainsAux pat cs

/-- Model of `s.includes(pat)` (source line 74). -/
def strContains (s pat : String) : Bool :=
  strContainsAux pat.data s.data

/-- Case-insensitive literal match: returns the input after the literal when
it matches at the head. -/
def ciStartsWith : List Char → List Char → Option (List Char)
  | [], cs => some cs
  | _ :: _, [] => none
  | p :: ps, c :: cs => if p.toLower = c.toLower then ciStartsWith ps cs else none

/-- Leftmost match of a case-insensitive regex of shape
`/lit(CAP+)/i` where `CAP` is a character class: scans positions left to
right, and at each position requires the literal followed by at least one
class character, capturing the maximal run (greedy `+`). -/
def scanCiCapture (lit : String) (isCap : Char → Bool) : List Char → Option String
  | [] => none
  | c :: cs =>
      match ciStartsWith lit.data (c :: cs) with
      | some rest =>
          let cap := rest.takeWhile isCap
          if cap ≠ [] then some (String.mk cap) else scanCiCapture lit isCap cs
      | none => scanCiCapture lit isCap cs

/-- Class `[A-Za-z0-9]` of the pastebin rule (source line 67). -/
def isPastebinIdChar (c : Char) : Bool := c.isAlphanum

/-- Class `[A-Za-z0-9\-]` of the rentry rule (source line 71). -/
def isRentryIdChar (c : Char) : Bool := c.isAlphanum || c = '-'

/-- Leftmost match of `/[?&]URL=([^&]+)/i` (source line 75): a `?` or `&`,
the literal `URL=` case-insensitively, then a maximal non-empty run of
non-`&` characters, which is the capture. -/
def urlParamScan : List Char → Option String
  | [] => none
  | c :: cs =>
      if c = '?' || c = '&' then
        match ciStartsWith "URL=".data cs with
        | some rest =>
            let cap := rest.takeWhile (· ≠ '&')
            if cap ≠ [] then some (String.mk cap) else urlParamScan cs
        | none => urlParamScan cs
      else urlParamScan cs

/-- String-level entry of the `[?&]URL=` capture. -/
def urlParamMatch (s : String) : Option String :=
  urlParamScan s.data

/-- Resolution Result object.  Fields mirror the object literals of the
source; `bypassed` is a `JSVal` because the external-API path can store a
non-string candidate there, and `JSVal.null` stands for both an absent field
and an explicit `null` (JS treats them alike everywhere in this program).
`fromCache` is the annotation added on cache hits. -/
structure BypassResult where
  bypassed : JSVal := .null
  method : Option String := none
  raw : Option String := none
  error : Option String := none
  source : Option String := none
  fromCache : Bool := false

/-- Function `domainExtractor` (source lines 63-79): looks up the link's
host against the three hard-coded rules.  The function is `async` but fully
synchronous and deterministic; its only possible fault is the `URIError`
from `decodeURIComponent` in the `param-URL` rule, modelled by the
`Except` result. -/
def domainExtractor (link : String) : Except JsError (Option BypassResult) :=
  match hostnameOf link with
  | none => .ok none
  | some host =>
    if host = "" then .ok none
    else
      let pb : Option BypassResult :=
        if host = "pastebin.com" then
          match scanCiCapture "pastebin.com/" isPastebinIdChar link.data with
          | some mid =>
              some { bypassed := .str ("https://pastebin.com/raw/" ++ mid), method := some "pastebin-raw" }
          | none => none
        else none
      match pb with
      | some r => .ok (some r)
      | none =>
        let rn : Option BypassResult :=
          if host = "rentry.co" then
            match scanCiCapture "rentry.co/" isRentryIdChar link.data with
            | some mid =>
                some { bypassed := .str ("https://rentry.co/" ++ mid ++ "/raw"), method := some "rentry-raw" }
            | none => none
          else none
        match rn with
        | some r => .ok (some r)
        | none =>
          if strContains host "deltaios-executor.com" then
            match urlParamMatch link with
            | some cap =>
              (match decodeURIComponent cap with
               | .ok d => .ok (some { bypassed := .str d, method := some "param-URL" })
               | .error e => .error e)
            | none => .ok none
          else .ok none

/-- Successful outcome of the redirect-following fetch (source lines 84-86):
`url` is `res.url` (absent modelled as `none`), `text` is the body text,
already a plain string because `res.text().catch(() => "")` swallows body
faults. -/
structure FetchOk where
  url : Option String
  text : String

/-- Field names probed on a parsed JSON body by `tryFollowRedirect`
(source line 90). -/
def jsonTargetKeys : List String := ["bypassed", "url", "target", "redirect", "result", "data"]

/-- Scan of the parsed body for a string-valued target field (source lines
89-94): the first listed key present on the object with a string value (an
empty string qualifies, since only `typeof` is checked) yields a
`json-target` result. -/
def jsonTargetScanAux (j : JSVal) (text : String) : List String → BypassResult
  | [] => { bypassed := .null, raw := some (jsTake text 2000) }
  | k :: ks =>
      if jsTruthy j && jsTypeIsObject j then
        match jsGetProp j k with
        | some (.str s) =>
            { bypassed := .str s, method := some "json-target",
              raw := some (jsTake (stringifyJSVal j) 2000) }
        | _ => jsonTargetScanAux j text ks
      else jsonTargetScanAux j text ks

/-- Function `tryFollowRedirect` (source lines 82-100) over a fetch oracle:
a network fault becomes an error-shaped result; a final URL different from
the link is a `redirect` result; otherwise the body is parsed as JSON and
scanned for a string target field; otherwise a failure-shaped result keeps
the truncated body. -/
def tryFollowRedirect (res : Except JsError FetchOk) (link : String) : BypassResult :=
  match res with
  | .error err => { bypassed := .null, error := some (errString err) }
  | .ok r =>
      let final := match r.url with
        | some u => if u ≠ "" then u else link
        | none => link
      if final ≠ "" && final ≠ link then
        { bypassed := .str final, method := some "redirect", raw := some (jsTake r.text 2000) }
      else
        match jsonParse r.text with
        | some j => jsonTargetScanAux j r.text jsonTargetKeys
        | none => { bypassed := .null, raw := some (jsTake r.text 2000) }

/-- Response of `callExternalApi` as consumed by `processLink` (source lines
108-112): only the body text matters downstream (`status`, `usedUrl` and
`method` are never read by the caller), and `parsed` is derived from the
text exactly as the source does. -/
structure ApiRes where
  text : String

/-- The `parsed` field of an external-API response: `JSON.parse` of the body
under try/catch with `null` as the fallback (source lines 110-111). -/
def apiParsed (a : ApiRes) : JSVal :=
  (jsonParse a.text).getD .null

/-- Observable event of one `playwrightBypass` call: permit acquisition and
release, and creation/closing of the browsing context and page. -/
inductive PwEvent where
  | acquire
  | contextCreated
  | pageCreated
  | pageClosed
  | contextClosed
  | release
deriving DecidableEq, Repr

/-- Effect oracle for one `playwrightBypass` call: whether the shared
browser already exists, and the outcome of each awaited browser operation.
`goto` is carried for completeness but its rejection is swallowed by the
source's `.catch(() => null)` (line 146), and a `content` fault falls back
to `""` via `.catch(() => "")` (line 149), so neither changes control
flow. -/
structure PwEnv where
  browserReady : Bool
  launch : Except JsError Unit
  newContext : Except JsError Unit
  newPage : Except JsError Unit
  goto : Except JsError Unit
  pageUrlAfter : String
  content : Except JsError String
  pageClose : Except JsError Unit
  contextClose : Except JsError Unit

/-- Error-shaped result of the outer catch of `playwrightBypass`
(source line 156). -/
def pwErrorResult (e : JsError) : BypassResult :=
  { bypassed := .null, error := some (errString e) }

/-- Function `playwrightBypass` (source lines 137-160), returning the result
together with the ordered list of observable events.  Control flow mirrors
the source exactly: an outer try/catch/finally whose finally releases the
permit, and an inner try/finally around navigation whose finally runs
`page.close()` then `context.close()`; a fault in `page.close()` or a fault
before the inner try (browser launch, context creation, page creation)
reaches the outer catch, skipping the remaining close calls. -/
def playwrightBypass (env : PwEnv) (link : String) : BypassResult × List PwEvent :=
  match (if env.browserReady then Except.ok () else env.launch) with
  | .error e => (pwErrorResult e, [.acquire, .release])
  | .ok _ =>
    match env.newContext with
    | .error e => (pwErrorResult e, [.acquire, .release])
    | .ok _ =>
      match env.newPage with
      | .error e => (pwErrorResult e, [.acquire, .contextCreated, .release])
      | .ok _ =>
        let html := match env.content with
          | .ok s => s
          | .error _ => ""
        match env.pageClose with
        | .error e => (pwErrorResult e, [.acquire, .contextCreated, .pageCreated, .release])
        | .ok _ =>
          match env.contextClose with
          | .error e =>
              (pwErrorResult e, [.acquire, .contextCreated, .pageCreated, .pageClosed, .release])
          | .ok _ =>
              ({ bypassed := .str env.pageUrlAfter, method := some "playwright",
                 raw := some (jsTake html 3000) },
               [.acquire, .contextCreated, .pageCreated, .pageClosed, .contextClosed, .release])

/-- The `Semaphore` class state (source line 27): the fixed maximum, the
current counter, and the FIFO queue of waiting tasks (identified by task
ids; the source stores their `resolve` callbacks). -/
structure Semaphore where
  max : Nat
  current : Nat
  queue : List Nat

/-- Phase of a task with respect to the semaphore: not yet arrived, holding
a permit, parked in the queue, woken by a `release` but with its
continuation (`this.current++` on source line 31) not yet run, or finished
after releasing. -/
inductive TPhase where
  | idle
  | active
  | queued
  | woken
  | done
deriving DecidableEq, Repr

/-- A semaphore together with the phases of finitely many tasks (task `i`
is entry `i` of the list). -/
structure SemSys where
  sem : Semaphore
  phases : List TPhase

/-- Phase of task `i` (out-of-range ids read as `done` and can never
step). -/
def phaseOf (s : SemSys) (i : Nat) : TPhase :=
  s.phases.getD i .done

/-- Number of tasks currently holding a permit, i.e. inside the guarded
render section. -/
def activeCount (s : SemSys) : Nat :=
  s.phases.count .active

/-- One atomic synchronous block of the `Semaphore` code under the JS event
loop.  `acquireFast` and `acquireWait` are the two branches of `acquire()`
(source lines 28-32): the fast path increments `current` and enters;
otherwise the task parks at the back of the queue.  `releaseEmpty` and
`releaseWake` are `release()` (source lines 33-36): decrement `current`
(floored at zero by `Math.max`) and, if the queue is non-empty, shift and
call the front waiter's `resolve` — which only schedules that waiter.
`resume` is the waiter's continuation after its promise resolves: the
`this.current++` on line 31, an event-loop step separate from the release
that woke it. -/
inductive SemStep : SemSys → SemSys → Prop where
  | acquireFast (s : SemSys) (i : Nat) :
      phaseOf s i = .idle → s.sem.current < s.sem.max →
      SemStep s { sem := { s.sem with current := s.sem.current + 1 },
                  phases := s.phases.set i .active }
  | acquireWait (s : SemSys) (i : Nat) :
      phaseOf s i = .idle → ¬ s.sem.current < s.sem.max →
      SemStep s { sem := { s.sem with queue := s.sem.queue ++ [i] },
                  phases := s.phases.set i .queued }
  | releaseEmpty (s : SemSys) (i : Nat) :
      phaseOf s i = .active → s.sem.queue = [] →
      SemStep s { sem := { s.sem with current := s.sem.current - 1 },
                  phases := s.phases.set i .done }
  | releaseWake (s : SemSys) (i j : Nat) (rest : List Nat) :
      phaseOf s i = .active → s.sem.queue = j :: rest →
      SemStep s { sem := { s.sem with current := s.sem.current - 1, queue := rest },
                  phases := (s.phases.set i .done).set j .woken }
  | resume (s : SemSys) (j : Nat) :
      phaseOf s j = .woken →
      SemStep s { sem := { s.sem with current := s.sem.current + 1 },
                  phases := s.phases.set j .active }

/-- Reachability under semaphore steps (reflexive-transitive closure). -/
inductive SemReach : SemSys → SemSys → Prop where
  | refl (s : SemSys) : SemReach s s
  | tail (a b c : SemSys) : SemReach a b → SemStep b c → SemReach a c

/-- Options object of `processLink` as far as the pipeline reads it: only
`json_result` is consumed (source lines 215 and 220). -/
structure Opts where
  json_result : Option String := none

/-- The preferred-key argument `opts.json_result || "bypassed"` passed to the
candidate extractor: the JS `||` falls back on a falsy (absent or empty)
value. -/
def hintOf (o : Opts) : String :=
  match o.json_result with
  | some s => if s ≠ "" then s else "bypassed"
  | none => "bypassed"

/-- One strategy of the pipeline, in the source's own vocabulary: the domain
extractor, the redirect follower, the two external APIs, and the Playwright
render fallback. -/
inductive Strat where
  | extractor
  | redirect
  | abysm
  | trw
  | render
deriving DecidableEq, Repr

/-- Environment of one pipeline run: the oracle outcomes of every network
and browser effect the strategies can perform for this link, plus the
`ENABLE_EXTERNAL_APIS` flag.  The two external calls are modelled at the
response level (body text) because `processLink` reads nothing else from
them. -/
structure Env where
  fetchRes : Except JsError FetchOk
  abysmRes : Except JsError ApiRes
  trwRes : Except JsError ApiRes
  pw : PwEnv
  extEnabled : Bool

/-- The fixed failure result of total exhaustion (source line 229). -/
def notSupportedResult : BypassResult :=
  { bypassed := .null, error := some "Link not supported or API is down" }

/-- One external-API attempt of `processLink` (source lines 213-217 and
218-222): a network fault is swallowed by the surrounding catch (`none`);
otherwise the candidate extractor runs on the parsed body and a truthy
candidate yields the strategy's result. -/
def runExternal (a : Except JsError ApiRes) (tag : String) (hint : String) : Option BypassResult :=
  match a with
  | .error _ => none
  | .ok ar =>
      let candidate := extractCandidate (apiParsed ar) (some ar.text) hint
      if jsTruthy candidate then
        some { bypassed := candidate, method := some tag, raw := some (jsTake ar.text 3000) }
      else none

/-- Render tail of the pipeline (source lines 226-229): the Playwright
fallback, else the fixed failure result.  Returns the outcome, the list of
cache writes performed, and the strategies invoked. -/
def runFromRender (env : Env) (link : String) :
    Except JsError BypassResult × List (String × BypassResult) × List Strat :=
  let pw := (playwrightBypass env.pw link).1
  if jsTruthy pw.bypassed then (.ok pw, [(link, pw)], [.render])
  else (.ok notSupportedResult, [], [.render])

/-- External-API stage of the pipeline (source lines 212-223): skipped
entirely unless `ENABLE_EXTERNAL_APIS`; abysm then trw in declared order,
stopping at the first truthy candidate. -/
def runFromExternals (env : Env) (link : String) (hint : String) :
    Except JsError BypassResult × List (String × BypassResult) × List Strat :=
  if env.extEnabled then
    match runExternal env.abysmRes "abysm" hint with
    | some out => (.ok out, [(link, out)], [.abysm])
    | none =>
      match runExternal env.trwRes "trw" hint with
      | some out => (.ok out, [(link, out)], [.abysm, .trw])
      | none =>
          let t := runFromRender env link
          (t.1, t.2.1, .abysm :: .trw :: t.2.2)
  else runFromRender env link

/-- Redirect stage of the pipeline (source lines 208-209): a truthy
`bypassed` short-circuits with the result cached un-annotated and returned
with `source = "redirect"`. -/
def runFromRedirect (env : Env) (link : String) (hint : String) :
    Except JsError BypassResult × List (String × BypassResult) × List Strat :=
  let red := tryFollowRedirect env.fetchRes link
  if jsTruthy red.bypassed then
    (.ok { red with source := some "redirect" }, [(link, red)], [.redirect])
  else
    let t := runFromExternals env link hint
    (t.1, t.2.1, .redirect :: t.2.2)

/-- Body of the in-flight computation of `processLink` (source lines
202-229): the strategy chain in fixed order with short-circuit on the first
truthy `bypassed`, each success written to the cache before returning.  The
`Except` outcome distinguishes a returned Resolution Result from a fault
propagating out of the chain (only the domain extractor can throw; the body
has no catch, only the finally modelled by `processCompletion`). -/
def runPipeline (env : Env) (link : String) (hint : String) :
    Except JsError BypassResult × List (String × BypassResult) × List Strat :=
  match domainExtractor link with
  | .error e => (.error e, [], [.extractor])
  | .ok extOpt =>
    match extOpt with
    | some ext =>
        if jsTruthy ext.bypassed then
          (.ok { ext with source := some "extractor" }, [(link, ext)], [.extractor])
        else
          let t := runFromRedirect env link hint
          (t.1, t.2.1, .extractor :: t.2.2)
    | none =>
        let t := runFromRedirect env link hint
        (t.1, t.2.1, .extractor :: t.2.2)

/-- Shared mutable state touched by `processLink`: the cache and the
in-flight registry (source lines 23 and 194), plus bookkeeping that makes
the claims statable — a fresh id for each started computation and a log of
started computations.  The cache is modelled as the map of live entries;
LRU eviction and TTL expiry only remove entries, which no claim under
verification depends on.  Promises are modelled by their ids: every caller
holding the same id observes the same eventual settlement. -/
structure SysState where
  cache : String → Option BypassResult
  inProgress : String → Option Nat
  nextId : Nat
  startedLog : List (String × Nat)

/-- What a caller of `processLink` gets from its first atomic block:
an immediate missing-link result, an annotated cached result, attachment to
an existing in-flight promise, or a freshly started computation. -/
inductive EntryOutcome where
  | missingLink : BypassResult → EntryOutcome
  | cached : BypassResult → EntryOutcome
  | attached : Nat → EntryOutcome
  | startedNew : Nat → EntryOutcome

/-- The entry block of `processLink` (source lines 197-199, 201 and
235-236).  This whole span is one synchronous block of the event loop: the
async IIFE started on line 201 suspends at its first `await` (inside it,
`domainExtractor` itself contains no `await` and runs synchronously to
completion), after which line 235 registers the promise before control can
reach any other task — so the cache test, the in-flight test and the
registration are atomic, and the check-then-insert cannot race. -/
def processLinkEntry (st : SysState) (link : String) : EntryOutcome × SysState :=
  if link = "" then
    (.missingLink { bypassed := .null, error := some "missing link" }, st)
  else
    match st.cache link with
    | some r => (.cached { r with fromCache := true }, st)
    | none =>
      match st.inProgress link with
      | some p => (.attached p, st)
      | none =>
          (.startedNew st.nextId,
           { cache := st.cache,
             inProgress := fun k => if k = link then some st.nextId else st.inProgress k,
             nextId := st.nextId + 1,
             startedLog := (link, st.nextId) :: st.startedLog })

/-- Applies the pipeline's cache writes in order (each `cache.set`). -/
def applyWrites (c : String → Option BypassResult) :
    List (String × BypassResult) → (String → Option BypassResult)
  | [] => c
  | (l, r) :: ws => applyWrites (fun k => if k = l then some r else c k) ws

/-- Completion of the in-flight computation for a link: the pipeline's
outcome together with the state reached when its promise settles.  The
`finally` on source lines 230-232 deletes the in-flight registration
unconditionally — on a returned success, a returned failure result, and a
fault thrown from a strategy alike (the try block has no catch; the
rejection propagates only after the finally has run). -/
def processCompletion (env : Env) (link : String) (opts : Opts) (st : SysState) :
    Except JsError BypassResult × SysState :=
  let t := runPipeline env link (hintOf opts)
  (t.1,
   { cache := applyWrites st.cache t.2.1,
     inProgress := fun k => if k = link then none else st.inProgress k,
     nextId := st.nextId,
     startedLog := st.startedLog })

/-- The fixed cost order of the strategy chain (source lines 202-229), with
the external stage present only when remote resolvers are enabled. -/
def fullOrder (enabled : Bool) : List Strat :=
  [.extractor, .redirect] ++ (if enabled then [.abysm, .trw] else []) ++ [.render]

/-- Prefix of a list through its first element satisfying the predicate
(the whole list when none does). -/
def takeThrough (p : Strat → Bool) : List Strat → List Strat
  | [] => []
  | s :: ss => if p s then [s] else s :: takeThrough p ss

/-- Whether a given strategy produces a short-circuiting (truthy `bypassed`)
outcome under the given environment. -/
def stratSucceeds (env : Env) (link : String) (hint : String) : Strat → Bool
  | .extractor =>
      (match domainExtractor link with
       | .ok (some e) => jsTruthy e.bypassed
       | _ => false)
  | .redirect => jsTruthy (tryFollowRedirect env.fetchRes link).bypassed
  | .abysm => (runExternal env.abysmRes "abysm" hint).isSome
  | .trw => (runExternal env.trwRes "trw" hint).isSome
  | .render => jsTruthy (playwrightBypass env.pw link).1.bypassed

/-- A hint-branch hit is always a string. -/
theorem hintHit_shape (p : JSVal) (k : String) (v : JSVal) (h : hintHit p k = some v) :
    ∃ s, v = .str s := by
  unfold hintHit at h
  split at h
  · split at h
    · split at h
      · exact ⟨_, (Option.some.inj h).symm⟩
      · exact absurd h (by simp)
    · exact absurd h (by simp)
  · exact absurd h (by simp)

/-- A priority-scan hit is a string, or the truthy `url` field of an object
value sitting under one of the scanned keys. -/
theorem scanKeys_shape (ks : List String) (p v : JSVal) (h : scanKeys ks p = some v) :
    (∃ s, v = .str s) ∨
    ∃ k w, k ∈ ks ∧ jsGetProp p k = some w ∧ jsGetProp w "url" = some v ∧
      jsTruthy v = true := by
  induction ks with
  | nil => exact absurd h (by simp [scanKeys])
  | cons k ks ih =>
    have step : scanKeys ks p = some v →
        (∃ s, v = .str s) ∨
        ∃ k2 w2, k2 ∈ k :: ks ∧ jsGetProp p k2 = some w2 ∧
          jsGetProp w2 "url" = some v ∧ jsTruthy v = true := by
      intro h2
      rcases ih h2 with h1 | ⟨k2, w2, hk, hw⟩
      · exact Or.inl h1
      · exact Or.inr ⟨k2, w2, List.mem_cons_of_mem _ hk, hw⟩
    unfold scanKeys at h
    split at h
    · exact step h
    · rename_i w hg
      split at h
      · split at h
        · exact Or.inl ⟨_, (Option.some.inj h).symm⟩
        · exact step h
      · split at h
        · split at h
          · split at h
            · rename_i hne htr u hu htu
              exact Or.inr ⟨k, w, List.mem_cons_self _ _, hg,
                by rw [hu, Option.some.inj h], by rw [← Option.some.inj h]; exact htu⟩
            · exact step h
          · exact step h
        · exact step h

/-- A serialized-form hit is a string. -/
theorem serializedFind_shape (p v : JSVal) (h : serializedFind p = some v) :
    ∃ s, v = .str s := by
  unfold serializedFind at h
  cases hf : urlRegexFind (stringifyJSVal p) with
  | none => rw [hf] at h; exact absurd h (by simp)
  | some m => rw [hf] at h; exact ⟨m, (Option.some.inj h).symm⟩

/-- The raw-text fallback yields a string or `null`. -/
theorem textFallback_shape (t : Option String) :
    (∃ s, textFallback t = .str s) ∨ textFallback t = .null := by
  cases t with
  | none => exact Or.inr rfl
  | some s =>
    by_cases he : s ≠ ""
    · cases hf : urlRegexFind s with
      | some m => exact Or.inl ⟨m, by simp [textFallback, he, hf]⟩
      | none => exact Or.inr (by simp [textFallback, he, hf])
    · exact Or.inr (by simp [textFallback, he])

/-- Demonstration structure of the extractor-priority property. -/
def extractorDemoObj : JSVal :=
  .obj [("bypassed", .str "http://a"), ("url", .str "http://b")]

/-- C9: with `\x7bbypassed: "http://a", url: "http://b"\x7d` and no hint path the
extractor returns "http://a" (`bypassed` precedes `url` in the priority
scan) — shown both for an empty hint and for the call-site default hint
"bypassed" — and whenever a non-empty dot-separated hint path walks to the
non-empty string "http://c" on an object payload, the extractor returns
"http://c" regardless of any other fields present. -/
theorem extractor_priority :
    (extractCandidate extractorDemoObj none "" = .str "http://a" ∧
     extractCandidate extractorDemoObj none "bypassed" = .str "http://a") ∧
    ∀ (parsed : JSVal) (text : Option String) (hintPath : String),
      hintPath ≠ "" →
      (jsTruthy parsed && jsTypeIsObject parsed) = true →
      hintWalk parsed (jsSplitDot hintPath) = .str "http://c" →
      extractCandidate parsed text hintPath = .str "http://c" := by
  refine ⟨⟨by rfl, by rfl⟩, ?_⟩
  intro parsed text hintPath h1 h2 h3
  have hh : hintHit parsed hintPath = some (.str "http://c") := by
    unfold hintHit
    rw [if_pos h1, h3]
    show (if jsTrim "http://c" ≠ "" then some (JSVal.str "http://c") else none) =
      some (JSVal.str "http://c")
    rw [if_pos (by decide : jsTrim "http://c" ≠ "")]
  unfold extractCandidate
  simp [h2, hh]

/-- C9 witness: the priority theorem applied at the concrete payload
`\x7bd: \x7bx: "http://c"\x7d, bypassed: "zzz"\x7d` with hint path "d.x". -/
theorem extractor_priority_witness :
    extractCandidate (JSVal.obj [("d", JSVal.obj [("x", JSVal.str "http://c")]), ("bypassed", JSVal.str "zzz")])
      (some "body") "d.x" = JSVal.str "http://c" :=
  extractor_priority.2 _ (some "body") "d.x" (by decide) rfl rfl

/-- C10 amended: the extractor is a total deterministic function of its
arguments (the model is a Lean function, so it cannot throw), and its result
is a string, or `null`, or — the one exception the code allows — the truthy
value of the `url` field of an object stored under one of the priority keys,
which need not be a string. -/
theorem extract_total_shape (parsed : JSVal) (text : Option String) (hintPath : String) :
    (∃ s, extractCandidate parsed text hintPath = .str s) ∨
    extractCandidate parsed text hintPath = .null ∨
    ∃ k w, k ∈ priorityKeys ∧ jsGetProp parsed k = some w ∧
      jsGetProp w "url" = some (extractCandidate parsed text hintPath) ∧
      jsTruthy (extractCandidate parsed text hintPath) = true := by
  unfold extractCandidate
  split
  · cases hh : hintHit parsed hintPath with
    | some v =>
        rcases hintHit_shape _ _ _ hh with ⟨s, rfl⟩
        exact Or.inl ⟨s, rfl⟩
    | none =>
        cases hs : scanKeys priorityKeys parsed with
        | some v =>
            rcases scanKeys_shape _ _ _ hs with ⟨s, rfl⟩ | ⟨k, w, hk, hw, hu, ht⟩
            · exact Or.inl ⟨s, rfl⟩
            · exact Or.inr (Or.inr ⟨k, w, hk, hw, hu, ht⟩)
        | none =>
            cases hf : serializedFind parsed with
            | some v =>
                rcases serializedFind_shape _ _ hf with ⟨s, rfl⟩
                exact Or.inl ⟨s, rfl⟩
            | none =>
                rcases textFallback_shape text with ⟨s, hv⟩ | hv
                · exact Or.inl ⟨s, hv⟩
                · exact Or.inr (Or.inl hv)
  · rcases textFallback_shape text with ⟨s, hv⟩ | hv
    · exact Or.inl ⟨s, hv⟩
    · exact Or.inr (Or.inl hv)

/-- Payload whose nested `url` field holds a number. -/
def nonStringDemo : JSVal := .obj [("bypassed", .obj [("url", .num 42)])]

/-- Tests whether a value is a string or `null` — the shapes the claim says
are the only possible extractor results. -/
def isStrOrNull : JSVal → Bool
  | .str _ => true
  | .null => true
  | _ => false

/-- C10 counterexample: on `\x7bbypassed: \x7burl: 42\x7d\x7d` (with the call-site default
hint "bypassed") the extractor returns the number `42`, which is neither a
string nor `null`, refuting the claimed result type. -/
theorem extract_nonstring_cex :
    extractCandidate nonStringDemo none "bypassed" = JSVal.num 42 ∧
    isStrOrNull (extractCandidate nonStringDemo none "bypassed") = false :=
  ⟨rfl, rfl⟩

/-- C5: when the in-flight computation for a link completes — by a returned
success, a returned failure result, or a fault thrown from a strategy (every
`Except` outcome of the pipeline alike) — the in-flight registration for
that link is gone from the completed state, unconditionally: the deletion
sits in the `finally` of the computation, so no de-duplication entry can
remain stuck. -/
theorem inflight_removed_on_completion (env : Env) (link : String) (opts : Opts) (st : SysState) :
    (processCompletion env link opts st).2.inProgress link = none := by
  simp [processCompletion]

/-- C1: for an uncached link with an in-flight computation `p`, a concurrent
call to `processLink` attaches to `p` — it returns the very same promise and
leaves the state untouched (in particular the log of started computations),
so the strategy chain is not re-run and both callers await the same pending
computation, receiving identical results when it settles.  Stated over the
atomic entry block; its atomicity argument is in `processLinkEntry`'s doc
comment. -/
theorem processLink_deduplicates (st : SysState) (link : String) (p : Nat)
    (h0 : ¬ link = "") (hc : st.cache link = none) (hp : st.inProgress link = some p) :
    processLinkEntry st link = (.attached p, st) := by
  simp [processLinkEntry, h0, hc, hp]

/-- Fresh server state: empty cache, no in-flight entries. -/
def emptySysState : SysState :=
  { cache := fun _ => none, inProgress := fun _ => none, nextId := 0, startedLog := [] }

/-- C1 witness: starting a computation for a link on the empty state and
entering again for the same link attaches to the first computation. -/
theorem processLink_deduplicates_witness :
    (processLinkEntry emptySysState "https://sho.rt/a").1 = .startedNew 0 ∧
    processLinkEntry (processLinkEntry emptySysState "https://sho.rt/a").2 "https://sho.rt/a"
      = (.attached 0, (processLinkEntry emptySysState "https://sho.rt/a").2) := by
  constructor
  · rfl
  · exact processLink_deduplicates (processLinkEntry emptySysState "https://sho.rt/a").2
      "https://sho.rt/a" 0 (by decide) rfl rfl

/-- Initial demonstration system: permit bound 1, three tasks not yet
arrived. -/
def semDemo0 : SemSys :=
  { sem := { max := 1, current := 0, queue := [] }, phases := [.idle, .idle, .idle] }

/-- After task 0 takes the fast acquire path. -/
def semDemo1 : SemSys :=
  { sem := { max := 1, current := 1, queue := [] }, phases := [.active, .idle, .idle] }

/-- After task 1 parks in the queue. -/
def semDemo2 : SemSys :=
  { sem := { max := 1, current := 1, queue := [1] }, phases := [.active, .queued, .idle] }

/-- After task 0 releases, waking task 1 (whose continuation has not yet
run). -/
def semDemo3 : SemSys :=
  { sem := { max := 1, current := 0, queue := [] }, phases := [.done, .woken, .idle] }

/-- After task 2 arrives and takes the fast acquire path in the window
between the release and task 1's resumption. -/
def semDemo4 : SemSys :=
  { sem := { max := 1, current := 1, queue := [] }, phases := [.done, .woken, .active] }

/-- After task 1's continuation finally runs: two permit holders. -/
def semDemo5 : SemSys :=
  { sem := { max := 1, current := 2, queue := [] }, phases := [.done, .active, .active] }

/-- C2: the semaphore does not enforce its bound.  From an initial state
with `max = 1`, a reachable event-loop interleaving — acquire, a second
acquire that queues, a release that wakes the queued waiter, a third acquire
sneaking in before the woken waiter's `this.current++` continuation runs,
then that continuation — ends with two tasks simultaneously active inside
the render section.  The `release` hands the permit over non-atomically
(decrement on line 34, the waiter's increment on line 31 runs in a later
microtask), so a fresh caller can slip through the gap and the bound `N`
and the first-come-first-served granting order are both violated. -/
theorem semaphore_bound_violated :
    ∃ s : SemSys, SemReach semDemo0 s ∧ s.sem.max = 1 ∧ activeCount s = 2 := by
  refine ⟨semDemo5, ?_, rfl, by decide⟩
  have t1 : SemStep semDemo0 semDemo1 := SemStep.acquireFast semDemo0 0 rfl (by decide)
  have t2 : SemStep semDemo1 semDemo2 := SemStep.acquireWait semDemo1 1 rfl (by decide)
  have t3 : SemStep semDemo2 semDemo3 := SemStep.releaseWake semDemo2 0 1 [] rfl rfl
  have t4 : SemStep semDemo3 semDemo4 := SemStep.acquireFast semDemo3 2 rfl (by decide)
  have t5 : SemStep semDemo4 semDemo5 := SemStep.resume semDemo4 1 rfl
  exact SemReach.tail _ _ _
    (SemReach.tail _ _ _
      (SemReach.tail _ _ _
        (SemReach.tail _ _ _
          (SemReach.tail _ _ _ (SemReach.refl semDemo0) t1) t2) t3) t4) t5

/-- Render oracle where everything succeeds. -/
def pwEnvDemoOk : PwEnv :=
  { browserReady := true, launch := .ok (), newContext := .ok (), newPage := .ok (),
    goto := .ok (), pageUrlAfter := "https://final.example/t",
    content := .ok "<html></html>", pageClose := .ok (), contextClose := .ok () }

/-- Render oracle where page creation faults after the context exists. -/
def pwEnvDemoBad : PwEnv :=
  { browserReady := true, launch := .ok (), newContext := .ok (),
    newPage := .error (.jsError "Error: page crashed"), goto := .ok (),
    pageUrlAfter := "about:blank", content := .ok "", pageClose := .ok (),
    contextClose := .ok () }

/-- C8 counterexample: when `context.newPage()` faults, the call exits (with
the permit released) having created the browsing context but never closing
it — the inner `finally` holding `context.close()` is never reached, so the
claimed "context closed on every exit path" is false. -/
theorem render_context_leak_cex :
    PwEvent.contextCreated ∈ (playwrightBypass pwEnvDemoBad "https://x.example/a").2 ∧
    PwEvent.contextClosed ∉ (playwrightBypass pwEnvDemoBad "https://x.example/a").2 ∧
    PwEvent.release ∈ (playwrightBypass pwEnvDemoBad "https://x.example/a").2 := by
  refine ⟨?_, ?_, ?_⟩ <;> decide

/-- C8 amended: on every exit path the permit is acquired and released
exactly once (acquisition and release are exception-safe), and on the fully
successful path (result without `error`) both the page and the context are
closed; whenever the page was created and `page.close()` does not fault the
page is closed, and whenever the page was closed and `context.close()` does
not fault the context is closed — but a fault in page creation, or in
`page.close()` itself, exits with the browsing context left unclosed. -/
theorem render_cleanup (env : PwEnv) (link : String) :
    ((playwrightBypass env link).2.count .acquire = 1 ∧
     (playwrightBypass env link).2.count .release = 1) ∧
    ((playwrightBypass env link).1.error = none →
      PwEvent.pageClosed ∈ (playwrightBypass env link).2 ∧
      PwEvent.contextClosed ∈ (playwrightBypass env link).2) ∧
    (PwEvent.pageCreated ∈ (playwrightBypass env link).2 → env.pageClose = .ok () →
      PwEvent.pageClosed ∈ (playwrightBypass env link).2) ∧
    (PwEvent.pageClosed ∈ (playwrightBypass env link).2 → env.contextClose = .ok () →
      PwEvent.contextClosed ∈ (playwrightBypass env link).2) := by
  obtain ⟨br, la, nc, np, gt, pu, ct, pc, cc⟩ := env
  unfold playwrightBypass
  cases br <;> cases la <;> cases nc <;> cases np <;> cases pc <;> cases cc <;>
    simp [pwErrorResult]

/-- C8 witness: the cleanup theorem applied to the all-success oracle shows
this call closed both the page and the context. -/
theorem render_cleanup_witness :
    PwEvent.pageClosed ∈ (playwrightBypass pwEnvDemoOk "https://x.example/a").2 ∧
    PwEvent.contextClosed ∈ (playwrightBypass pwEnvDemoOk "https://x.example/a").2 :=
  (render_cleanup pwEnvDemoOk "https://x.example/a").2.1 rfl

/-- The json-target scan never sets `source` or `fromCache`. -/
theorem jsonTargetScanAux_fields (j : JSVal) (text : String) (ks : List String) :
    (jsonTargetScanAux j text ks).source = none ∧
    (jsonTargetScanAux j text ks).fromCache = false := by
  induction ks with
  | nil => exact ⟨rfl, rfl⟩
  | cons k ks ih =>
      unfold jsonTargetScanAux
      split
      · split
        · exact ⟨rfl, rfl⟩
        · exact ih
      · exact ih

/-- The redirect strategy never sets `source` or `fromCache`. -/
theorem tryFollowRedirect_fields (res : Except JsError FetchOk) (link : String) :
    (tryFollowRedirect res link).source = none ∧
    (tryFollowRedirect res link).fromCache = false := by
  unfold tryFollowRedirect
  cases res with
  | error e => exact ⟨rfl, rfl⟩
  | ok r =>
      repeat' split
      all_goals dsimp only
      all_goals repeat' split
      all_goals first
        | exact ⟨rfl, rfl⟩
        | exact jsonTargetScanAux_fields _ _ _

/-- The render strategy never sets `source` or `fromCache`. -/
theorem playwrightBypass_fields (env : PwEnv) (link : String) :
    ((playwrightBypass env link).1).source = none ∧
    ((playwrightBypass env link).1).fromCache = false := by
  obtain ⟨br, la, nc, np, gt, pu, ct, pc, cc⟩ := env
  unfold playwrightBypass
  cases br <;> cases la <;> cases nc <;> cases np <;> cases pc <;> cases cc <;>
    simp [pwErrorResult]

/-- A domain-extractor hit never sets `source` or `fromCache`. -/
theorem domainExtractor_fields (link : String) (e : BypassResult)
    (h : domainExtractor link = .ok (some e)) :
    e.source = none ∧ e.fromCache = false := by
  unfold domainExtractor at h
  repeat' split at h
  all_goals simp_all
  all_goals (obtain ⟨rfl⟩ := h; exact ⟨rfl, rfl⟩)

/-- A successful external-API attempt yields a truthy candidate and never
sets `source` or `fromCache`. -/
theorem runExternal_some (a : Except JsError ApiRes) (tag hint : String) (out : BypassResult)
    (h : runExternal a tag hint = some out) :
    jsTruthy out.bypassed = true ∧ out.source = none ∧ out.fromCache = false := by
  unfold runExternal at h
  dsimp only at h
  split at h
  · exact absurd h (by simp)
  · split at h
    · obtain rfl : _ = out := Option.some.inj h
      rename_i ht
      exact ⟨ht, rfl, rfl⟩
    · exact absurd h (by simp)

/-- Erasing an already-absent `source` annotation is the identity. -/
theorem source_none_eta (b : BypassResult) (h : b.source = none) :
    { b with source := none } = b := by
  cases b
  simp_all

/-- Setting and then erasing the `source` annotation of an un-annotated
result is the identity. -/
theorem source_set_none (b : BypassResult) (v : Option String) (h : b.source = none) :
    ({ { b with source := v } with source := none } : BypassResult) = b := by
  cases b
  simp_all

/-- The render stage always returns a result (never a fault). -/
theorem runFromRender_ok (env : Env) (link : String) :
    ∃ r, (runFromRender env link).1 = .ok r := by
  unfold runFromRender
  dsimp only
  split
  · exact ⟨_, rfl⟩
  · exact ⟨_, rfl⟩

/-- The external stage always returns a result (never a fault). -/
theorem runFromExternals_ok (env : Env) (link : String) (hint : String) :
    ∃ r, (runFromExternals env link hint).1 = .ok r := by
  unfold runFromExternals
  dsimp only
  split
  · split
    · exact ⟨_, rfl⟩
    · split
      · exact ⟨_, rfl⟩
      · exact runFromRender_ok env link
  · exact runFromRender_ok env link

/-- The redirect stage always returns a result (never a fault). -/
theorem runFromRedirect_ok (env : Env) (link : String) (hint : String) :
    ∃ r, (runFromRedirect env link hint).1 = .ok r := by
  unfold runFromRedirect
  dsimp only
  split
  · exact ⟨_, rfl⟩
  · exact runFromExternals_ok env link hint

/-- Every cache write of the render stage is for this link, has a truthy
`bypassed` and carries no provenance annotations. -/
theorem runFromRender_writes (env : Env) (link : String) (l : String) (r : BypassResult)
    (h : (l, r) ∈ (runFromRender env link).2.1) :
    jsTruthy r.bypassed = true ∧ r.source = none ∧ r.fromCache = false ∧ l = link := by
  unfold runFromRender at h
  dsimp only at h
  split at h
  · rename_i ht
    rcases List.mem_singleton.mp h with heq
    obtain ⟨rfl, rfl⟩ := Prod.mk.injEq .. ▸ And.intro (congrArg Prod.fst heq) (congrArg Prod.snd heq)
    exact ⟨ht, (playwrightBypass_fields env.pw link).1, (playwrightBypass_fields env.pw link).2, rfl⟩
  · exact absurd h (by simp)

/-- Every cache write of the external stage is for this link, has a truthy
`bypassed` and carries no provenance annotations. -/
theorem runFromExternals_writes (env : Env) (link : String) (hint : String) (l : String) (r : BypassResult)
    (h : (l, r) ∈ (runFromExternals env link hint).2.1) :
    jsTruthy r.bypassed = true ∧ r.source = none ∧ r.fromCache = false ∧ l = link := by
  unfold runFromExternals at h
  dsimp only at h
  split at h
  · split at h
    · rename_i out hab
      rcases List.mem_singleton.mp h with heq
      obtain ⟨rfl, rfl⟩ := Prod.mk.injEq .. ▸ And.intro (congrArg Prod.fst heq) (congrArg Prod.snd heq)
      obtain ⟨h1, h2, h3⟩ := runExternal_some _ _ _ _ hab
      exact ⟨h1, h2, h3, rfl⟩
    · split at h
      · rename_i out htr
        rcases List.mem_singleton.mp h with heq
        obtain ⟨rfl, rfl⟩ := Prod.mk.injEq .. ▸ And.intro (congrArg Prod.fst heq) (congrArg Prod.snd heq)
        obtain ⟨h1, h2, h3⟩ := runExternal_some _ _ _ _ htr
        exact ⟨h1, h2, h3, rfl⟩
      · exact runFromRender_writes env link l r h
  · exact runFromRender_writes env link l r h

/-- Every cache write of the redirect stage is for this link, has a truthy
`bypassed` and carries no provenance annotations. -/
theorem runFromRedirect_writes (env : Env) (link : String) (hint : String) (l : String) (r : BypassResult)
    (h : (l, r) ∈ (runFromRedirect env link hint).2.1) :
    jsTruthy r.bypassed = true ∧ r.source = none ∧ r.fromCache = false ∧ l = link := by
  unfold runFromRedirect at h
  dsimp only at h
  split at h
  · rename_i ht
    rcases List.mem_singleton.mp h with heq
    obtain ⟨rfl, rfl⟩ := Prod.mk.injEq .. ▸ And.intro (congrArg Prod.fst heq) (congrArg Prod.snd heq)
    exact ⟨ht, (tryFollowRedirect_fields env.fetchRes link).1,
      (tryFollowRedirect_fields env.fetchRes link).2, rfl⟩
  · exact runFromExternals_writes env link hint l r h

/-- Every cache write of the pipeline is for this link, has a truthy
`bypassed` and carries no provenance annotations. -/
theorem pipeline_writes_char (env : Env) (link : String) (hint : String) (l : String) (r : BypassResult)
    (h : (l, r) ∈ (runPipeline env link hint).2.1) :
    jsTruthy r.bypassed = true ∧ r.source = none ∧ r.fromCache = false ∧ l = link := by
  unfold runPipeline at h
  dsimp only at h
  split at h
  · exact absurd h (by simp)
  · split at h
    · split at h
      · rename_i e _ ht
        rcases List.mem_singleton.mp h with heq
        obtain ⟨rfl, rfl⟩ := Prod.mk.injEq .. ▸ And.intro (congrArg Prod.fst heq) (congrArg Prod.snd heq)
        rename_i hd
        obtain ⟨h2, h3⟩ := domainExtractor_fields link _ hd
        exact ⟨ht, h2, h3, rfl⟩
      · exact runFromRedirect_writes env link hint l r h
    · exact runFromRedirect_writes env link hint l r h

/-- On a short-circuiting render result, the stage caches exactly the
returned result (which carries no annotations). -/
theorem runFromRender_success_write (env : Env) (link : String) (r : BypassResult)
    (h : (runFromRender env link).1 = .ok r) (ht : jsTruthy r.bypassed = true) :
    (runFromRender env link).2.1 = [(link, { r with source := none })] := by
  by_cases hc : jsTruthy (playwrightBypass env.pw link).1.bypassed = true
  · have he : runFromRender env link
        = (.ok (playwrightBypass env.pw link).1, [(link, (playwrightBypass env.pw link).1)], [.render]) := by
      unfold runFromRender
      dsimp only
      rw [if_pos hc]
    rw [he] at h
    obtain rfl : _ = r := Except.ok.inj h
    rw [he]
    exact congrArg (fun x => [(link, x)])
      (source_none_eta _ (playwrightBypass_fields env.pw link).1).symm
  · have he : runFromRender env link = (.ok notSupportedResult, [], [.render]) := by
      unfold runFromRender
      dsimp only
      rw [if_neg hc]
    rw [he] at h
    obtain rfl : _ = r := Except.ok.inj h
    simp [notSupportedResult, jsTruthy] at ht

/-- On a short-circuiting external result, the stage caches exactly the
returned result. -/
theorem runFromExternals_success_write (env : Env) (link : String) (hint : String) (r : BypassResult)
    (h : (runFromExternals env link hint).1 = .ok r) (ht : jsTruthy r.bypassed = true) :
    (runFromExternals env link hint).2.1 = [(link, { r with source := none })] := by
  cases henv : env.extEnabled with
  | false =>
      have he : runFromExternals env link hint = runFromRender env link := by
        unfold runFromExternals
        rw [henv]
        simp
      rw [he] at h
      rw [he]
      exact runFromRender_success_write env link r h ht
  | true =>
      cases ha : runExternal env.abysmRes "abysm" hint with
      | some out =>
          have he : runFromExternals env link hint = (.ok out, [(link, out)], [.abysm]) := by
            unfold runFromExternals
            rw [henv]
            simp [ha]
          rw [he] at h
          obtain rfl : out = r := Except.ok.inj h
          rw [he]
          exact congrArg (fun x => [(link, x)])
            (source_none_eta _ (runExternal_some _ _ _ _ ha).2.1).symm
      | none =>
          cases htr : runExternal env.trwRes "trw" hint with
          | some out =>
              have he : runFromExternals env link hint = (.ok out, [(link, out)], [.abysm, .trw]) := by
                unfold runFromExternals
                rw [henv]
                simp [ha, htr]
              rw [he] at h
              obtain rfl : out = r := Except.ok.inj h
              rw [he]
              exact congrArg (fun x => [(link, x)])
                (source_none_eta _ (runExternal_some _ _ _ _ htr).2.1).symm
          | none =>
              have he1 : (runFromExternals env link hint).1 = (runFromRender env link).1 := by
                unfold runFromExternals
                rw [henv]
                simp [ha, htr]
              have he2 : (runFromExternals env link hint).2.1 = (runFromRender env link).2.1 := by
                unfold runFromExternals
                rw [henv]
                simp [ha, htr]
              rw [he1] at h
              rw [he2]
              exact runFromRender_success_write env link r h ht

/-- On a short-circuiting redirect result, the stage caches the strategy's
result — the returned result stripped of the `source` annotation. -/
theorem runFromRedirect_success_write (env : Env) (link : String) (hint : String) (r : BypassResult)
    (h : (runFromRedirect env link hint).1 = .ok r) (ht : jsTruthy r.bypassed = true) :
    (runFromRedirect env link hint).2.1 = [(link, { r with source := none })] := by
  by_cases hc : jsTruthy (tryFollowRedirect env.fetchRes link).bypassed = true
  · have he : runFromRedirect env link hint
        = (.ok { tryFollowRedirect env.fetchRes link with source := some "redirect" },
           [(link, tryFollowRedirect env.fetchRes link)], [.redirect]) := by
      unfold runFromRedirect
      dsimp only
      rw [if_pos hc]
    rw [he] at h
    obtain rfl : _ = r := Except.ok.inj h
    rw [he]
    exact congrArg (fun x => [(link, x)])
      (source_set_none _ _ (tryFollowRedirect_fields env.fetchRes link).1).symm
  · have he : (runFromRedirect env link hint).1 = (runFromExternals env link hint).1 ∧
        (runFromRedirect env link hint).2.1 = (runFromExternals env link hint).2.1 := by
      unfold runFromRedirect
      dsimp only
      rw [if_neg hc]
      exact ⟨rfl, rfl⟩
    rw [he.1] at h
    rw [he.2]
    exact runFromExternals_success_write env link hint r h ht

/-- On a short-circuiting pipeline result, the cache receives exactly one
write, for this link, holding the returned result stripped of its `source`
annotation. -/
theorem pipeline_success_write (env : Env) (link : String) (hint : String) (r : BypassResult)
    (h : (runPipeline env link hint).1 = .ok r) (ht : jsTruthy r.bypassed = true) :
    (runPipeline env link hint).2.1 = [(link, { r with source := none })] := by
  cases hd : domainExtractor link with
  | error e =>
      have hx : (runPipeline env link hint).1 = .error e := by
        unfold runPipeline
        rw [hd]
      rw [hx] at h
      exact absurd h (by simp)
  | ok extOpt =>
      cases extOpt with
      | some ext =>
          by_cases hc : jsTruthy ext.bypassed = true
          · have he : runPipeline env link hint
                = (.ok { ext with source := some "extractor" }, [(link, ext)], [.extractor]) := by
              unfold runPipeline
              rw [hd]
              dsimp only
              rw [if_pos hc]
            rw [he] at h
            obtain rfl : _ = r := Except.ok.inj h
            rw [he]
            exact congrArg (fun x => [(link, x)])
              (source_set_none _ _ (domainExtractor_fields link ext hd).1).symm
          · have he1 : (runPipeline env link hint).1 = (runFromRedirect env link hint).1 := by
              unfold runPipeline
              rw [hd]
              dsimp only
              rw [if_neg hc]
            have he2 : (runPipeline env link hint).2.1 = (runFromRedirect env link hint).2.1 := by
              unfold runPipeline
              rw [hd]
              dsimp only
              rw [if_neg hc]
            rw [he1] at h
            rw [he2]
            exact runFromRedirect_success_write env link hint r h ht
      | none =>
          have he1 : (runPipeline env link hint).1 = (runFromRedirect env link hint).1 := by
            unfold runPipeline
            rw [hd]
          have he2 : (runPipeline env link hint).2.1 = (runFromRedirect env link hint).2.1 := by
            unfold runPipeline
            rw [hd]
          rw [he1] at h
          rw [he2]
          exact runFromRedirect_success_write env link hint r h ht

/-- A render stage ending in the fixed failure result wrote nothing. -/
theorem runFromRender_failure (env : Env) (link : String)
    (h : (runFromRender env link).1 = .ok notSupportedResult) :
    (runFromRender env link).2.1 = [] := by
  by_cases hc : jsTruthy (playwrightBypass env.pw link).1.bypassed = true
  · have he : (runFromRender env link).1 = .ok (playwrightBypass env.pw link).1 := by
      unfold runFromRender
      dsimp only
      rw [if_pos hc]
    rw [he] at h
    rw [Except.ok.inj h] at hc
    simp [notSupportedResult, jsTruthy] at hc
  · unfold runFromRender
    dsimp only
    rw [if_neg hc]

/-- An external stage ending in the fixed failure result wrote nothing. -/
theorem runFromExternals_failure (env : Env) (link : String) (hint : String)
    (h : (runFromExternals env link hint).1 = .ok notSupportedResult) :
    (runFromExternals env link hint).2.1 = [] := by
  cases henv : env.extEnabled with
  | false =>
      have he : runFromExternals env link hint = runFromRender env link := by
        unfold runFromExternals
        rw [henv]
        simp
      rw [he] at h ⊢
      exact runFromRender_failure env link h
  | true =>
      cases ha : runExternal env.abysmRes "abysm" hint with
      | some out =>
          have he : runFromExternals env link hint = (.ok out, [(link, out)], [.abysm]) := by
            unfold runFromExternals
            rw [henv]
            simp [ha]
          rw [he] at h
          have hx := (runExternal_some _ _ _ _ ha).1
          rw [Except.ok.inj h] at hx
          simp [notSupportedResult, jsTruthy] at hx
      | none =>
          cases htr : runExternal env.trwRes "trw" hint with
          | some out =>
              have he : runFromExternals env link hint = (.ok out, [(link, out)], [.abysm, .trw]) := by
                unfold runFromExternals
                rw [henv]
                simp [ha, htr]
              rw [he] at h
              have hx := (runExternal_some _ _ _ _ htr).1
              rw [Except.ok.inj h] at hx
              simp [notSupportedResult, jsTruthy] at hx
          | none =>
              have he1 : (runFromExternals env link hint).1 = (runFromRender env link).1 := by
                unfold runFromExternals
                rw [henv]
                simp [ha, htr]
              have he2 : (runFromExternals env link hint).2.1 = (runFromRender env link).2.1 := by
                unfold runFromExternals
                rw [henv]
                simp [ha, htr]
              rw [he1] at h
              rw [he2]
              exact runFromRender_failure env link h

/-- A redirect stage ending in the fixed failure result wrote nothing. -/
theorem runFromRedirect_failure (env : Env) (link : String) (hint : String)
    (h : (runFromRedirect env link hint).1 = .ok notSupportedResult) :
    (runFromRedirect env link hint).2.1 = [] := by
  by_cases hc : jsTruthy (tryFollowRedirect env.fetchRes link).bypassed = true
  · have he : (runFromRedirect env link hint).1
        = .ok { tryFollowRedirect env.fetchRes link with source := some "redirect" } := by
      unfold runFromRedirect
      dsimp only
      rw [if_pos hc]
    rw [he] at h
    have hb := congrArg BypassResult.bypassed (Except.ok.inj h)
    simp only [notSupportedResult] at hb
    rw [show ({ tryFollowRedirect env.fetchRes link with source := some "redirect" }
        : BypassResult).bypassed = (tryFollowRedirect env.fetchRes link).bypassed from rfl] at hb
    rw [hb] at hc
    simp [jsTruthy] at hc
  · have he1 : (runFromRedirect env link hint).1 = (runFromExternals env link hint).1 := by
      unfold runFromRedirect
      dsimp only
      rw [if_neg hc]
    have he2 : (runFromRedirect env link hint).2.1 = (runFromExternals env link hint).2.1 := by
      unfold runFromRedirect
      dsimp only
      rw [if_neg hc]
    rw [he1] at h
    rw [he2]
    exact runFromExternals_failure env link hint h

/-- A pipeline run ending in the fixed failure result wrote nothing to the
cache. -/
theorem pipeline_failure_no_writes (env : Env) (link : String) (hint : String)
    (h : (runPipeline env link hint).1 = .ok notSupportedResult) :
    (runPipeline env link hint).2.1 = [] := by
  cases hd : domainExtractor link with
  | error e =>
      have hx : (runPipeline env link hint).1 = .error e := by
        unfold runPipeline
        rw [hd]
      rw [hx] at h
      exact absurd h (by simp)
  | ok extOpt =>
      cases extOpt with
      | some ext =>
          by_cases hc : jsTruthy ext.bypassed = true
          · have he : (runPipeline env link hint).1 = .ok { ext with source := some "extractor" } := by
              unfold runPipeline
              rw [hd]
              dsimp only
              rw [if_pos hc]
            rw [he] at h
            have hb := congrArg BypassResult.bypassed (Except.ok.inj h)
            simp only [notSupportedResult] at hb
            rw [show ({ ext with source := some "extractor" } : BypassResult).bypassed
                = ext.bypassed from rfl] at hb
            rw [hb] at hc
            simp [jsTruthy] at hc
          · have he1 : (runPipeline env link hint).1 = (runFromRedirect env link hint).1 := by
              unfold runPipeline
              rw [hd]
              dsimp only
              rw [if_neg hc]
            have he2 : (runPipeline env link hint).2.1 = (runFromRedirect env link hint).2.1 := by
              unfold runPipeline
              rw [hd]
              dsimp only
              rw [if_neg hc]
            rw [he1] at h
            rw [he2]
            exact runFromRedirect_failure env link hint h
      | none =>
          have he1 : (runPipeline env link hint).1 = (runFromRedirect env link hint).1 := by
            unfold runPipeline
            rw [hd]
          have he2 : (runPipeline env link hint).2.1 = (runFromRedirect env link hint).2.1 := by
            unfold runPipeline
            rw [hd]
          rw [he1] at h
          rw [he2]
          exact runFromRedirect_failure env link hint h

/-- On a one-element list, `takeThrough` keeps the element whether or not it
satisfies the predicate. -/
theorem takeThrough_singleton (p : Strat → Bool) (s : Strat) : takeThrough p [s] = [s] := by
  unfold takeThrough
  split <;> rfl

/-- The render stage invokes exactly the render strategy. -/
theorem runFromRender_trace (env : Env) (link : String) (hint : String) :
    (runFromRender env link).2.2 = takeThrough (stratSucceeds env link hint) [.render] := by
  rw [takeThrough_singleton]
  unfold runFromRender
  dsimp only
  split <;> rfl

/-- The external stage invokes the enabled tail of the strategy order up to
and including its first short-circuiting strategy. -/
theorem runFromExternals_trace (env : Env) (link : String) (hint : String) :
    (runFromExternals env link hint).2.2 =
      takeThrough (stratSucceeds env link hint)
        ((if env.extEnabled then [.abysm, .trw] else []) ++ [.render]) := by
  cases henv : env.extEnabled with
  | false =>
      have he : runFromExternals env link hint = runFromRender env link := by
        unfold runFromExternals
        rw [henv]
        simp
      rw [he]
      simp only [Bool.false_eq_true, if_false, List.nil_append]
      exact runFromRender_trace env link hint
  | true =>
      cases ha : runExternal env.abysmRes "abysm" hint with
      | some out =>
          have he : runFromExternals env link hint = (.ok out, [(link, out)], [.abysm]) := by
            unfold runFromExternals
            rw [henv]
            simp [ha]
          rw [he]
          simp [takeThrough, stratSucceeds, ha]
      | none =>
          cases htr : runExternal env.trwRes "trw" hint with
          | some out =>
              have he : runFromExternals env link hint = (.ok out, [(link, out)], [.abysm, .trw]) := by
                unfold runFromExternals
                rw [henv]
                simp [ha, htr]
              rw [he]
              simp [takeThrough, stratSucceeds, ha, htr]
          | none =>
              have he : (runFromExternals env link hint).2.2
                  = .abysm :: .trw :: (runFromRender env link).2.2 := by
                unfold runFromExternals
                rw [henv]
                simp [ha, htr]
              rw [he]
              simp [takeThrough, stratSucceeds, ha, htr,
                runFromRender_trace env link hint]

/-- The redirect stage invokes the redirect-onward tail of the strategy
order up to and including its first short-circuiting strategy. -/
theorem runFromRedirect_trace (env : Env) (link : String) (hint : String) :
    (runFromRedirect env link hint).2.2 =
      takeThrough (stratSucceeds env link hint)
        (.redirect :: ((if env.extEnabled then [.abysm, .trw] else []) ++ [.render])) := by
  by_cases hc : jsTruthy (tryFollowRedirect env.fetchRes link).bypassed = true
  · have he : (runFromRedirect env link hint).2.2 = [.redirect] := by
      unfold runFromRedirect
      dsimp only
      rw [if_pos hc]
    rw [he]
    simp [takeThrough, stratSucceeds, hc]
  · have he : (runFromRedirect env link hint).2.2
        = .redirect :: (runFromExternals env link hint).2.2 := by
      unfold runFromRedirect
      dsimp only
      rw [if_neg hc]
    rw [he]
    rw [Bool.not_eq_true] at hc
    simp [takeThrough, stratSucceeds, hc, runFromExternals_trace env link hint]

/-- The pipeline invokes exactly the prefix of the fixed strategy order up
to and including the first short-circuiting strategy (the whole order when
none short-circuits), provided the domain extractor does not throw. -/
theorem pipeline_trace_char (env : Env) (link : String) (hint : String) (extOpt : Option BypassResult)
    (hd : domainExtractor link = .ok extOpt) :
    (runPipeline env link hint).2.2
      = takeThrough (stratSucceeds env link hint) (fullOrder env.extEnabled) := by
  have hfull : fullOrder env.extEnabled
      = .extractor :: .redirect :: ((if env.extEnabled then [.abysm, .trw] else []) ++ [.render]) := by
    unfold fullOrder
    simp
  rw [hfull]
  cases extOpt with
  | some ext =>
      by_cases hc : jsTruthy ext.bypassed = true
      · have he : (runPipeline env link hint).2.2 = [.extractor] := by
          unfold runPipeline
          rw [hd]
          dsimp only
          rw [if_pos hc]
        rw [he]
        have hp : stratSucceeds env link hint .extractor = true := by
          simp [stratSucceeds, hd, hc]
        simp [takeThrough, hp]
      · have he : (runPipeline env link hint).2.2
            = .extractor :: (runFromRedirect env link hint).2.2 := by
          unfold runPipeline
          rw [hd]
          dsimp only
          rw [if_neg hc]
        rw [he]
        have hp : stratSucceeds env link hint .extractor = false := by
          rw [Bool.not_eq_true] at hc
          simp [stratSucceeds, hd, hc]
        simp [takeThrough, hp, runFromRedirect_trace env link hint]
  | none =>
      have he : (runPipeline env link hint).2.2
          = .extractor :: (runFromRedirect env link hint).2.2 := by
        unfold runPipeline
        rw [hd]
      have hp : stratSucceeds env link hint .extractor = false := by
        simp [stratSucceeds, hd]
      rw [he]
      simp [takeThrough, hp, runFromRedirect_trace env link hint]

/-- Demonstration environment where every network effect faults and the
render oracle succeeds; remote resolvers disabled. -/
def envDemoPlain : Env :=
  { fetchRes := .error (.jsError "Error: fetch failed"),
    abysmRes := .error (.jsError "Error: fetch failed"),
    trwRes := .error (.jsError "Error: fetch failed"),
    pw := pwEnvDemoOk, extEnabled := false }

/-- C3 amended: on a run whose domain extractor does not throw, the invoked
strategies are exactly the prefix of the fixed order — Pattern Extractor,
Redirect-Follow, (only when remote resolvers are enabled) abysm then trw,
then Render — up to and including the first strategy with a truthy (non-null
and non-empty) `bypassed`, so no strategy runs after a success; and any
short-circuiting run performs exactly one cache write, for this link,
holding the returned result stripped of its `source` annotation (the
annotation is added to the returned copy only). -/
theorem pipeline_order_shortcircuit (env : Env) (link : String) (hint : String)
    (extOpt : Option BypassResult) (hd : domainExtractor link = .ok extOpt) :
    (runPipeline env link hint).2.2
      = takeThrough (stratSucceeds env link hint) (fullOrder env.extEnabled) ∧
    ∀ r, (runPipeline env link hint).1 = .ok r → jsTruthy r.bypassed = true →
      (runPipeline env link hint).2.1 = [(link, { r with source := none })] :=
  ⟨pipeline_trace_char env link hint extOpt hd,
   fun r h ht => pipeline_success_write env link hint r h ht⟩

/-- The result returned by the first resolution of the demonstration
pastebin link: the rule output annotated with `source = "extractor"`. -/
def pastebinRetRes : BypassResult :=
  { bypassed := JSVal.str "https://pastebin.com/raw/AbCd1234",
    method := some "pastebin-raw", source := some "extractor" }

/-- C3 witness: the order theorem applied to a pastebin link — the extractor
short-circuits, only the extractor is invoked, and the un-annotated rule
result is cached. -/
theorem pipeline_order_shortcircuit_witness :
    (runPipeline envDemoPlain "https://pastebin.com/AbCd1234" "bypassed").2.2
      = takeThrough (stratSucceeds envDemoPlain "https://pastebin.com/AbCd1234" "bypassed")
          (fullOrder envDemoPlain.extEnabled) ∧
    (runPipeline envDemoPlain "https://pastebin.com/AbCd1234" "bypassed").2.1
      = [("https://pastebin.com/AbCd1234",
          { bypassed := JSVal.str "https://pastebin.com/raw/AbCd1234",
            method := some "pastebin-raw" })] := by
  have h := pipeline_order_shortcircuit envDemoPlain "https://pastebin.com/AbCd1234" "bypassed" _ rfl
  exact ⟨h.1, h.2 pastebinRetRes rfl rfl⟩

/-- Environment whose redirect fetch lands on the same URL with body
`\x7b"bypassed":""\x7d`, making the Redirect-Follow strategy return a result whose
`bypassed` is the empty string: non-null, yet falsy. -/
def envDemoRedirectEmpty : Env :=
  { fetchRes := .ok { url := none, text := "\x7b\"bypassed\":\"\"\x7d" },
    abysmRes := .error (.jsError "Error: fetch failed"),
    trwRes := .error (.jsError "Error: fetch failed"),
    pw := pwEnvDemoOk, extEnabled := false }

/-- C3 counterexample: the Redirect-Follow result has a non-null `bypassed`
(the empty string, via the json-target path), yet the pipeline does not stop
there — the Render strategy is still invoked and its result is returned —
because the code tests JS truthiness, not null-ness. -/
theorem pipeline_nonnull_shortcircuit_cex :
    (tryFollowRedirect envDemoRedirectEmpty.fetchRes "https://t.example/a").bypassed ≠ JSVal.null ∧
    (runPipeline envDemoRedirectEmpty "https://t.example/a" "bypassed").2.2
      = [Strat.extractor, Strat.redirect, Strat.render] ∧
    (runPipeline envDemoRedirectEmpty "https://t.example/a" "bypassed").1
      = .ok { bypassed := JSVal.str "https://final.example/t", method := some "playwright",
              raw := some "<html></html>" } := by
  refine ⟨?_, by rfl, by rfl⟩
  intro h
  rw [show (tryFollowRedirect envDemoRedirectEmpty.fetchRes "https://t.example/a").bypassed
      = JSVal.str "" by rfl] at h
  exact JSVal.noConfusion h

/-- C4: only results with a truthy — in particular non-null — `bypassed`
field are ever written to the cache; a run that ends in the fixed
"Link not supported or API is down" failure writes nothing, and a subsequent
call for the same (previously uncached) link finds neither a cache entry nor
an in-flight entry and starts the full strategy chain again. -/
theorem only_success_cached (env : Env) (link : String) (opts : Opts) (st : SysState) :
    (∀ w ∈ (runPipeline env link (hintOf opts)).2.1, w.2.bypassed ≠ JSVal.null) ∧
    ((runPipeline env link (hintOf opts)).1 = .ok notSupportedResult →
      (runPipeline env link (hintOf opts)).2.1 = [] ∧
      (¬ link = "" → st.cache link = none →
        (processLinkEntry (processCompletion env link opts st).2 link).1
          = .startedNew (processCompletion env link opts st).2.nextId)) := by
  constructor
  · intro w hw
    obtain ⟨l, r⟩ := w
    have h := pipeline_writes_char env link (hintOf opts) l r hw
    intro hn
    rw [hn] at h
    simp [jsTruthy] at h
  · intro hfail
    have hw : (runPipeline env link (hintOf opts)).2.1 = [] :=
      pipeline_failure_no_writes env link (hintOf opts) hfail
    refine ⟨hw, fun h0 hc => ?_⟩
    simp [processLinkEntry, processCompletion, h0, hw, applyWrites, hc]

/-- Render oracle whose context creation faults, so the render strategy
yields an error-shaped (falsy `bypassed`) result. -/
def pwEnvDemoFail : PwEnv :=
  { browserReady := true, launch := .ok (),
    newContext := .error (.jsError "Error: browser crashed"), newPage := .ok (),
    goto := .ok (), pageUrlAfter := "", content := .ok "", pageClose := .ok (),
    contextClose := .ok () }

/-- Environment in which every strategy comes up empty: no domain rule, a
same-URL fetch with an empty body, remote resolvers disabled, render
faulting. -/
def envDemoAllFail : Env :=
  { fetchRes := .ok { url := none, text := "" },
    abysmRes := .error (.jsError "Error: fetch failed"),
    trwRes := .error (.jsError "Error: fetch failed"),
    pw := pwEnvDemoFail, extEnabled := false }

/-- C4 witness: a fully failing run returns the fixed diagnostic, caches
nothing, and the next entry for the link starts a fresh computation. -/
theorem only_success_cached_witness :
    (runPipeline envDemoAllFail "https://nox.example/p" "bypassed").1 = .ok notSupportedResult ∧
    (runPipeline envDemoAllFail "https://nox.example/p" "bypassed").2.1 = [] ∧
    (processLinkEntry
        (processCompletion envDemoAllFail "https://nox.example/p" { json_result := none } emptySysState).2
        "https://nox.example/p").1
      = .startedNew 0 := by
  have h := (only_success_cached envDemoAllFail "https://nox.example/p"
    { json_result := none } emptySysState).2 rfl
  exact ⟨rfl, h.1, h.2 (by decide) rfl⟩

/-- C6 amended: faults inside the Redirect-Follow, Remote Resolver and
Render strategies are always captured and represented as data — whenever the
Pattern Extractor does not itself throw, the pipeline returns a Resolution
Result for every environment.  (The Pattern Extractor can throw, see the
counterexample, and that fault escapes as a rejection.) -/
theorem pipeline_no_fault_after_extractor (env : Env) (link : String) (hint : String)
    (extOpt : Option BypassResult) (hd : domainExtractor link = .ok extOpt) :
    ∃ r, (runPipeline env link hint).1 = .ok r := by
  cases extOpt with
  | some ext =>
      by_cases hc : jsTruthy ext.bypassed = true
      · refine ⟨{ ext with source := some "extractor" }, ?_⟩
        unfold runPipeline
        rw [hd]
        dsimp only
        rw [if_pos hc]
      · have he : (runPipeline env link hint).1 = (runFromRedirect env link hint).1 := by
          unfold runPipeline
          rw [hd]
          dsimp only
          rw [if_neg hc]
        rw [he]
        exact runFromRedirect_ok env link hint
  | none =>
      have he : (runPipeline env link hint).1 = (runFromRedirect env link hint).1 := by
        unfold runPipeline
        rw [hd]
      rw [he]
      exact runFromRedirect_ok env link hint

/-- C6 witness: for a link with no domain rule the extractor is fault-free
and the theorem yields a returned Resolution Result even though every
network effect faults. -/
theorem pipeline_no_fault_after_extractor_witness :
    ∃ r, (runPipeline envDemoPlain "https://nob.example/q" "bypassed").1 = .ok r :=
  pipeline_no_fault_after_extractor envDemoPlain "https://nob.example/q" "bypassed" none rfl

/-- C6 counterexample: on the link `https://deltaios-executor.com/a?URL=%`
the `param-URL` rule calls `decodeURIComponent("%")`, which throws
`URIError`; the pipeline's outcome is a propagated exception, not a
Resolution Result — the fault escapes `processLink` as a rejected promise
(only the front door's catch-all stops it). -/
theorem strategy_fault_escapes_cex :
    (runPipeline envDemoPlain "https://deltaios-executor.com/a?URL=%" "bypassed").1
      = .error JsError.uriError := rfl

/-- C7 amended: after a successful (truthy `bypassed`) resolution completes
for a link, a second call performs no strategy invocations and no side
effects — it returns directly from the cache, leaving the state exactly as
it was — and its result equals the first call's result except that the
`source` annotation is absent (the cache stores the un-annotated strategy
result) and `fromCache = true` is set. -/
theorem cache_hit_second_call (env : Env) (st : SysState) (link : String) (opts : Opts)
    (r : BypassResult) (h0 : ¬ link = "")
    (hr : (runPipeline env link (hintOf opts)).1 = .ok r)
    (ht : jsTruthy r.bypassed = true) :
    processLinkEntry (processCompletion env link opts st).2 link
      = (.cached { r with source := none, fromCache := true },
         (processCompletion env link opts st).2) := by
  have hw := pipeline_success_write env link (hintOf opts) r hr ht
  simp [processLinkEntry, processCompletion, h0, hw, applyWrites]

/-- C7 witness: the cache-hit theorem applied after a pastebin resolution on
the empty state. -/
theorem cache_hit_second_call_witness :
    processLinkEntry
        (processCompletion envDemoPlain "https://pastebin.com/AbCd1234"
          { json_result := none } emptySysState).2
        "https://pastebin.com/AbCd1234"
      = (.cached { bypassed := JSVal.str "https://pastebin.com/raw/AbCd1234",
                   method := some "pastebin-raw", fromCache := true },
         (processCompletion envDemoPlain "https://pastebin.com/AbCd1234"
           { json_result := none } emptySysState).2) :=
  cache_hit_second_call envDemoPlain emptySysState "https://pastebin.com/AbCd1234"
    { json_result := none } pastebinRetRes (by decide) rfl rfl

/-- C7 counterexample: the first call for a pastebin link returns a result
carrying `source = "extractor"`, but the second call returns the cached copy
without that annotation — so the second result is not equal to the first
result merely annotated with `fromCache = true`. -/
theorem cache_hit_annotation_cex :
    (runPipeline envDemoPlain "https://pastebin.com/AbCd1234" "bypassed").1
      = .ok { bypassed := JSVal.str "https://pastebin.com/raw/AbCd1234",
              method := some "pastebin-raw", source := some "extractor" } ∧
    (processLinkEntry
        (processCompletion envDemoPlain "https://pastebin.com/AbCd1234"
          { json_result := none } emptySysState).2
        "https://pastebin.com/AbCd1234").1
      = .cached { bypassed := JSVal.str "https://pastebin.com/raw/AbCd1234",
                  method := some "pastebin-raw", fromCache := true } ∧
    ({ bypassed := JSVal.str "https://pastebin.com/raw/AbCd1234",
       method := some "pastebin-raw", fromCache := true } : BypassResult)
      ≠ { bypassed := JSVal.str "https://pastebin.com/raw/AbCd1234",
          method := some "pastebin-raw", source := some "extractor", fromCache := true } := by
  refine ⟨rfl, rfl, ?_⟩
  intro h
  have h2 := congrArg BypassResult.source h
  simp at h2
